import Mathlib

set_option linter.unusedVariables false

/-!
Shallow embedding of the `eosio.token` contract
(src/contracts/eosio.token/src/eosio.token.cpp and its header): a
fungible-token ledger with per-symbol supply records, per-(owner, symbol)
balance records, per-symbol fee-exemption sets, transfer fees and account
freezing.  Account names and symbol codes are modelled by their raw `uint64`
values as `Nat`; `int64` asset amounts are modelled as `Int` (overflow of the
platform's checked asset arithmetic is outside the contract's own code);
multi-index tables are association lists looked up by their primary keys.
The platform-provided facilities (authorization, account-existence and
symbol-validity checks) are an environment of boolean oracles, exactly the
external collaborators the contract calls into.
-/

namespace token

/-- A symbol: raw code (`symbol_code::raw`) plus decimal precision.  Two
symbols are equal only if both components are equal. -/
structure Symbol where
  code : Nat
  precision : Nat
deriving DecidableEq

/-- A typed amount (`eosio::asset`): an `int64` amount with its symbol. -/
structure Asset where
  amount : Int
  sym : Symbol
deriving DecidableEq

/-- Addition of assets as used by the contract on same-symbol values. -/
def Asset.add (a b : Asset) : Asset :=
  { amount := a.amount + b.amount, sym := a.sym }

/-- Subtraction of assets as used by the contract on same-symbol values. -/
def Asset.sub (a b : Asset) : Asset :=
  { amount := a.amount - b.amount, sym := a.sym }

/-- Largest magnitude an `asset` amount may carry: `asset::max_amount =
2^62 - 1`; `asset::is_valid` checks the amount lies within it. -/
def maxAmount : Int := 4611686018427387903

/-- Row of the `accounts` table: balance and frozen flag.  The primary key is
`balance.symbol.code()`; the scope (the owning account) is kept alongside the
row in the flattened table below.  `is_frozen` defaults to `false`. -/
structure Account where
  balance : Asset
  is_frozen : Bool
deriving DecidableEq

/-- Row of the `stat` table (`currency_stats`): supply, maximum supply,
issuer and fee rate.  The primary key is `supply.symbol.code()`. -/
structure CurrencyStats where
  supply : Asset
  max_supply : Asset
  issuer : Nat
  fees : Nat
deriving DecidableEq

/-- The `accounts`-row mutator of `sub_balance`'s modify callback:
`a.balance -= value`. -/
def subFn (v : Asset) : Account → Account :=
  fun x => { x with balance := x.balance.sub v }

/-- The `accounts`-row mutator of `add_balance`'s modify callback:
`a.balance += value`. -/
def addFn (v : Asset) : Account → Account :=
  fun x => { x with balance := x.balance.add v }

/-- The `accounts`-row mutator of `freeze`'s modify callback:
`a.is_frozen = status`. -/
def frzFn (b : Bool) : Account → Account :=
  fun x => { x with is_frozen := b }

/-- The `stat`-row mutator of `issue`'s modify callback:
`s.supply += quantity`. -/
def issueFn (q : Asset) : CurrencyStats → CurrencyStats :=
  fun x => { x with supply := x.supply.add q }

/-- The `stat`-row mutator of `retire`'s modify callback:
`s.supply -= quantity`. -/
def retireFn (q : Asset) : CurrencyStats → CurrencyStats :=
  fun x => { x with supply := x.supply.sub q }

/-- The `stat`-row mutator of `setfee`'s modify callback: `s.fees = fees`. -/
def setfeeFn (n : Nat) : CurrencyStats → CurrencyStats :=
  fun x => { x with fees := n }

/-- The `stat` row `create` emplaces: zero supply of the new symbol, the
given maximum supply and issuer, and the header's default `fees = 10`. -/
def createdRow (issuer : Nat) (maximum_supply : Asset) : CurrencyStats :=
  { supply := { amount := 0, sym := maximum_supply.sym },
    max_supply := maximum_supply, issuer := issuer, fees := 10 }

/-- The `accounts` row `add_balance` emplaces when none exists: balance the
credited value, frozen flag at its default `false`. -/
def emplacedRow (value : Asset) : Account :=
  { balance := value, is_frozen := false }

/-- The `accounts` row `open` emplaces when none exists: the zero balance of
the opened symbol, frozen flag at its default `false`. -/
def openedRow (symbol : Symbol) : Account :=
  { balance := { amount := 0, sym := symbol }, is_frozen := false }

/-- The failure kinds of the contract's `check`/`get` aborts, named after the
spec's error enumeration. -/
inductive Err where
  | InvalidSymbol
  | InvalidAmount
  | AlreadyExists
  | InvalidFee
  | NotFound
  | Unauthorized
  | MemoTooLong
  | IssueTargetMismatch
  | SymbolMismatch
  | SupplyExceeded
  | SelfTransfer
  | UnknownAccount
  | NoBalance
  | Overdrawn
  | AccountFrozen
  | NonZeroBalance
deriving DecidableEq

/-- The platform environment: the contract's own account (`get_self()`), the
authorization oracle (`require_auth`/`has_auth`), the account-existence
oracle (`is_account`) and the symbol-validity oracle (`symbol::is_valid`).
All are external collaborators of the ledger core. -/
structure Env where
  self : Nat
  auth : Nat → Bool
  is_account : Nat → Bool
  sym_valid : Symbol → Bool

/-- Validity of an asset (`asset::is_valid`): the amount lies within
`±max_amount` and the symbol is valid. -/
def assetValid (env : Env) (a : Asset) : Bool :=
  decide (-maxAmount ≤ a.amount ∧ a.amount ≤ maxAmount) && env.sym_valid a.sym

/-- The ledger state: the `stat` table, the `accounts` table flattened over
its per-owner scopes (each row tagged with its owner), and the
`exemptedacc` table flattened over its per-symbol-code scopes (each row a
(symbol code, account) pair). -/
structure Ledger where
  stats : List CurrencyStats
  accounts : List (Nat × Account)
  exempts : List (Nat × Nat)
deriving DecidableEq

/-- The empty ledger, before any operation has run. -/
def Ledger.empty : Ledger := { stats := [], accounts := [], exempts := [] }

/-- Lookup in the `stat` table by symbol code (`statstable.find(code)`). -/
def findStats : List CurrencyStats → Nat → Option CurrencyStats
  | [], _ => none
  | t :: l, c => if t.supply.sym.code = c then some t else findStats l c

/-- Modify the row of the `stat` table with the given symbol code
(`statstable.modify`). -/
def modifyStats : List CurrencyStats → Nat → (CurrencyStats → CurrencyStats) →
    List CurrencyStats
  | [], _, _ => []
  | t :: l, c, f =>
      if t.supply.sym.code = c then f t :: l else t :: modifyStats l c f

/-- Lookup in the `accounts` table, scope `owner`, key `code`
(`accounts(self, owner.value).find(code)`). -/
def findAccount : List (Nat × Account) → Nat → Nat → Option Account
  | [], _, _ => none
  | e :: l, o, c =>
      if e.1 = o ∧ e.2.balance.sym.code = c then some e.2 else findAccount l o c

/-- Modify the row of the `accounts` table at scope `owner`, key `code`
(`acnts.modify`). -/
def modifyAccount : List (Nat × Account) → Nat → Nat → (Account → Account) →
    List (Nat × Account)
  | [], _, _, _ => []
  | e :: l, o, c, f =>
      if e.1 = o ∧ e.2.balance.sym.code = c then (e.1, f e.2) :: l
      else e :: modifyAccount l o c f

/-- Erase the row of the `accounts` table at scope `owner`, key `code`
(`acnts.erase`). -/
def eraseAccount : List (Nat × Account) → Nat → Nat → List (Nat × Account)
  | [], _, _ => []
  | e :: l, o, c =>
      if e.1 = o ∧ e.2.balance.sym.code = c then l else e :: eraseAccount l o c

/-- Membership in the `exemptedacc` table, scope `code`, key `account`
(`exempts.find(account) != exempts.end()`). -/
def findExempt : List (Nat × Nat) → Nat → Nat → Bool
  | [], _, _ => false
  | e :: l, c, n => if e.1 = c ∧ e.2 = n then true else findExempt l c n

/-- Erase the row of the `exemptedacc` table, scope `code`, key `account`. -/
def eraseExempt : List (Nat × Nat) → Nat → Nat → List (Nat × Nat)
  | [], _, _ => []
  | e :: l, c, n => if e.1 = c ∧ e.2 = n then l else e :: eraseExempt l c n

/-- Sum of the balance amounts of all `accounts` rows whose symbol code is
`c` — the right-hand side of the conservation law. -/
def sumBalances : List (Nat × Account) → Nat → Int
  | [], _ => 0
  | e :: l, c =>
      (if e.2.balance.sym.code = c then e.2.balance.amount else 0) + sumBalances l c

/-- The supply amount recorded for symbol code `c`, taken as `0` when no
`stat` row exists for `c`. -/
def supplyAmt (s : Ledger) (c : Nat) : Int :=
  match findStats s.stats c with
  | some t => t.supply.amount
  | none => 0

/-- The balance amount held by `o` in symbol code `c`, taken as `0` when no
`accounts` row exists. -/
def balOf (s : Ledger) (o c : Nat) : Int :=
  match findAccount s.accounts o c with
  | some a => a.balance.amount
  | none => 0

/-- Whether an `Except` result is a success. -/
def okb : Except Err Ledger → Bool
  | .ok _ => true
  | .error _ => false

/-! ## The contract's functions, translated line by line from
`eosio.token.cpp`.  Each `check(cond, msg)` becomes a guard failing with the
spec's error kind for `msg`; a failing guard yields `.error e` and, the whole
operation being one `Except` computation, leaves no partial state behind
(the platform's all-or-nothing transaction semantics). -/

/-- `token::compute_fee` (eosio.token.cpp:210-213):
`fee_amount = (quantity.amount / 10000) * fee`, C++ `int64_t` division, i.e.
truncation toward zero (`Int.tdiv`), typed to `quantity.symbol`. -/
def compute_fee (quantity : Asset) (fee : Nat) : Asset :=
  { amount := quantity.amount.tdiv 10000 * (fee : Int), sym := quantity.sym }

/-- `token::sub_balance` (eosio.token.cpp:137-147): find the row, fail
`NoBalance` if absent ("no balance object found"); fail `Overdrawn` unless
`balance.amount >= value.amount`; fail `AccountFrozen` if `is_frozen`
("Sender account is frozen"); else `balance -= value`. -/
def sub_balance (s : Ledger) (owner : Nat) (value : Asset) : Except Err Ledger :=
  match findAccount s.accounts owner value.sym.code with
  | none => .error .NoBalance
  | some a =>
      if a.balance.amount < value.amount then .error .Overdrawn
      else if a.is_frozen then .error .AccountFrozen
      else .ok { s with accounts := modifyAccount s.accounts owner value.sym.code (subFn value) }

/-- `token::add_balance` (eosio.token.cpp:149-164): if no row exists, emplace
one with `balance = value` (and the default `is_frozen = false`), storage
paid by `ram_payer`; else fail `AccountFrozen` if `is_frozen` ("Receiver
account is frozen"), else `balance += value`. -/
def add_balance (s : Ledger) (owner : Nat) (value : Asset) (ram_payer : Nat) :
    Except Err Ledger :=
  match findAccount s.accounts owner value.sym.code with
  | none => .ok { s with accounts := (owner, emplacedRow value) :: s.accounts }
  | some a =>
      if a.is_frozen then .error .AccountFrozen
      else .ok { s with accounts := modifyAccount s.accounts owner value.sym.code (addFn value) }

/-- `token::create` (eosio.token.cpp:5-22): `require_auth(get_self())`;
check symbol validity, supply validity, `max_supply.amount > 0`, and absence
of an existing row; emplace a `currency_stats` row with `supply` the zero
asset of the same symbol, the given `max_supply` and `issuer`, and the
default `fees = 10`.  There is no `is_account` check on `issuer`. -/
def create (env : Env) (s : Ledger) (issuer : Nat) (maximum_supply : Asset) :
    Except Err Ledger :=
  if env.auth env.self = false then .error .Unauthorized
  else if env.sym_valid maximum_supply.sym = false then .error .InvalidSymbol
  else if assetValid env maximum_supply = false then .error .InvalidAmount
  else if maximum_supply.amount ≤ 0 then .error .InvalidAmount
  else match findStats s.stats maximum_supply.sym.code with
  | some _ => .error .AlreadyExists
  | none => .ok { s with stats := createdRow issuer maximum_supply :: s.stats }

/-- `token::setfee` (eosio.token.cpp:24-38): `require_auth(issuer)`; check
`fees < 50` and symbol validity; find the `stat` row; check the stored
issuer matches; update `fees`. -/
def setfee (env : Env) (s : Ledger) (issuer : Nat) (symbol : Symbol) (fees : Nat) :
    Except Err Ledger :=
  if env.auth issuer = false then .error .Unauthorized
  else if 50 ≤ fees then .error .InvalidFee
  else if env.sym_valid symbol = false then .error .InvalidSymbol
  else match findStats s.stats symbol.code with
  | none => .error .NotFound
  | some t =>
      if t.issuer ≠ issuer then .error .Unauthorized
      else .ok { s with stats := modifyStats s.stats symbol.code (setfeeFn fees) }

/-- `token::issue` (eosio.token.cpp:41-65): check symbol validity and memo
length; find the `stat` row; check `to == issuer`; `require_auth(issuer)`;
check quantity validity, positivity, exact symbol match, and
`quantity.amount <= max_supply.amount - supply.amount`; then
`supply += quantity` and `add_balance(issuer, quantity, issuer)`. -/
def issue (env : Env) (s : Ledger) («to» : Nat) (quantity : Asset) (memo : String) :
    Except Err Ledger :=
  if env.sym_valid quantity.sym = false then .error .InvalidSymbol
  else if 256 < memo.length then .error .MemoTooLong
  else match findStats s.stats quantity.sym.code with
  | none => .error .NotFound
  | some t =>
      if «to» ≠ t.issuer then .error .IssueTargetMismatch
      else if env.auth t.issuer = false then .error .Unauthorized
      else if assetValid env quantity = false then .error .InvalidAmount
      else if quantity.amount ≤ 0 then .error .InvalidAmount
      else if quantity.sym ≠ t.supply.sym then .error .SymbolMismatch
      else if t.max_supply.amount - t.supply.amount < quantity.amount then
        .error .SupplyExceeded
      else
        add_balance { s with stats := modifyStats s.stats quantity.sym.code (issueFn quantity) }
          t.issuer quantity t.issuer

/-- `token::retire` (eosio.token.cpp:67-89): check symbol validity and memo
length; find the `stat` row; `require_auth(issuer)`; check quantity
validity, positivity and exact symbol match; then `supply -= quantity` and
`sub_balance(issuer, quantity)`. -/
def retire (env : Env) (s : Ledger) (quantity : Asset) (memo : String) :
    Except Err Ledger :=
  if env.sym_valid quantity.sym = false then .error .InvalidSymbol
  else if 256 < memo.length then .error .MemoTooLong
  else match findStats s.stats quantity.sym.code with
  | none => .error .NotFound
  | some t =>
      if env.auth t.issuer = false then .error .Unauthorized
      else if assetValid env quantity = false then .error .InvalidAmount
      else if quantity.amount ≤ 0 then .error .InvalidAmount
      else if quantity.sym ≠ t.supply.sym then .error .SymbolMismatch
      else
        sub_balance { s with stats := modifyStats s.stats quantity.sym.code (retireFn quantity) }
          t.issuer quantity

/-- `token::logfee` (eosio.token.cpp:133-135): `require_auth(get_self())`
and no state mutation. -/
def logfee (env : Env) (s : Ledger) (account : Nat) (fee : Asset) :
    Except Err Ledger :=
  if env.auth env.self = false then .error .Unauthorized else .ok s

/-- The ram payer `transfer` resolves for newly created recipient rows:
`has_auth(to) ? to : from` (eosio.token.cpp:113). -/
def payerOf (env : Env) («from» «to» : Nat) : Nat :=
  if env.auth «to» then «to» else «from»

/-- The exemption-dependent half of `token::transfer`
(eosio.token.cpp:121-129): if `from` is exempt, `sub_balance(from,
quantity)`, `add_balance(to, quantity - fee)` and `logfee(to, fee)`; else
`sub_balance(from, quantity + fee)`, `add_balance(to, quantity)` and
`logfee(from, fee)`, with `fee = compute_fee(quantity, t.fees)`. -/
def transfer_branch (env : Env) (s : Ledger) («from» «to» : Nat)
    (quantity : Asset) (t : CurrencyStats) : Except Err Ledger :=
  if findExempt s.exempts quantity.sym.code «from» then
    match sub_balance s «from» quantity with
    | .error e => .error e
    | .ok s1 =>
        match add_balance s1 «to» (quantity.sub (compute_fee quantity t.fees))
            (payerOf env «from» «to») with
        | .error e => .error e
        | .ok s2 => logfee env s2 «to» (compute_fee quantity t.fees)
  else
    match sub_balance s «from» (quantity.add (compute_fee quantity t.fees)) with
    | .error e => .error e
    | .ok s1 =>
        match add_balance s1 «to» quantity (payerOf env «from» «to») with
        | .error e => .error e
        | .ok s2 => logfee env s2 «from» (compute_fee quantity t.fees)

/-- `token::transfer` (eosio.token.cpp:91-131): check `from != to`,
`require_auth(from)`, `is_account(to)`; get the `stat` row by the quantity's
symbol code; (require_recipient is a state-irrelevant notification); check
quantity validity, positivity, exact symbol match and memo length; run the
exemption-dependent debit/credit branch (`transfer_branch`); finally, in
both branches, `add_balance(issuer, fee, payer)`. -/
def transfer (env : Env) (s : Ledger) («from» «to» : Nat) (quantity : Asset)
    (memo : String) : Except Err Ledger :=
  if «from» = «to» then .error .SelfTransfer
  else if env.auth «from» = false then .error .Unauthorized
  else if env.is_account «to» = false then .error .UnknownAccount
  else match findStats s.stats quantity.sym.code with
  | none => .error .NotFound
  | some t =>
      if assetValid env quantity = false then .error .InvalidAmount
      else if quantity.amount ≤ 0 then .error .InvalidAmount
      else if quantity.sym ≠ t.supply.sym then .error .SymbolMismatch
      else if 256 < memo.length then .error .MemoTooLong
      else match transfer_branch env s «from» «to» quantity t with
      | .error e => .error e
      | .ok s3 =>
          add_balance s3 t.issuer (compute_fee quantity t.fees)
            (payerOf env «from» «to»)

/-- `token::open` (eosio.token.cpp:166-184): `require_auth(ram_payer)`;
check `is_account(owner)`; get the `stat` row; check the row's supply symbol
equals `symbol` exactly ("symbol precision mismatch"); if no `accounts` row
exists for (owner, code), emplace one with the zero balance, else do
nothing. -/
def «open» (env : Env) (s : Ledger) (owner : Nat) (symbol : Symbol)
    (ram_payer : Nat) : Except Err Ledger :=
  if env.auth ram_payer = false then .error .Unauthorized
  else if env.is_account owner = false then .error .UnknownAccount
  else match findStats s.stats symbol.code with
  | none => .error .NotFound
  | some t =>
      if t.supply.sym ≠ symbol then .error .SymbolMismatch
      else match findAccount s.accounts owner symbol.code with
      | some _ => .ok s
      | none => .ok { s with accounts := (owner, openedRow symbol) :: s.accounts }

/-- `token::close` (eosio.token.cpp:186-194): `require_auth(owner)`; find
the `accounts` row ("Balance row already deleted or never existed"); check
the balance is zero ("Cannot close because the balance is not zero");
erase the row. -/
def close (env : Env) (s : Ledger) (owner : Nat) (symbol : Symbol) :
    Except Err Ledger :=
  if env.auth owner = false then .error .Unauthorized
  else match findAccount s.accounts owner symbol.code with
  | none => .error .NotFound
  | some a =>
      if a.balance.amount ≠ 0 then .error .NonZeroBalance
      else .ok { s with accounts := eraseAccount s.accounts owner symbol.code }

/-- `token::freeze` (eosio.token.cpp:196-208): get the `stat` row;
`require_auth(issuer)`; get the `accounts` row ("Account not found"); set
`is_frozen = status`. -/
def freeze (env : Env) (s : Ledger) (account : Nat) (symbol : Symbol)
    (status : Bool) : Except Err Ledger :=
  match findStats s.stats symbol.code with
  | none => .error .NotFound
  | some t =>
      if env.auth t.issuer = false then .error .Unauthorized
      else match findAccount s.accounts account symbol.code with
      | none => .error .NotFound
      | some _ =>
          .ok { s with accounts := modifyAccount s.accounts account symbol.code (frzFn status) }

/-- `token::switchexempt` (eosio.token.cpp:215-241): `require_auth(issuer)`;
check symbol validity and `is_account(account)`; require the `stat` row and
the matching issuer; toggle membership of `account` in the per-symbol
exemption table. -/
def switchexempt (env : Env) (s : Ledger) (issuer : Nat) (symbol : Symbol)
    (account : Nat) : Except Err Ledger :=
  if env.auth issuer = false then .error .Unauthorized
  else if env.sym_valid symbol = false then .error .InvalidSymbol
  else if env.is_account account = false then .error .UnknownAccount
  else match findStats s.stats symbol.code with
  | none => .error .NotFound
  | some t =>
      if t.issuer ≠ issuer then .error .Unauthorized
      else if findExempt s.exempts symbol.code account then
        .ok { s with exempts := eraseExempt s.exempts symbol.code account }
      else
        .ok { s with exempts := (symbol.code, account) :: s.exempts }

/-- One invocation of one of the nine ledger operations, with its
arguments. -/
inductive Op where
  | create (issuer : Nat) (maximum_supply : Asset)
  | issue («to» : Nat) (quantity : Asset) (memo : String)
  | retire (quantity : Asset) (memo : String)
  | transfer («from» «to» : Nat) (quantity : Asset) (memo : String)
  | «open» (owner : Nat) (symbol : Symbol) (ram_payer : Nat)
  | close (owner : Nat) (symbol : Symbol)
  | freeze (account : Nat) (symbol : Symbol) (status : Bool)
  | setfee (issuer : Nat) (symbol : Symbol) (fees : Nat)
  | switchexempt (issuer : Nat) (symbol : Symbol) (account : Nat)

/-- Dispatch one operation against the ledger. -/
def applyOp (env : Env) (s : Ledger) : Op → Except Err Ledger
  | .create issuer maximum_supply => create env s issuer maximum_supply
  | .issue t quantity memo => issue env s t quantity memo
  | .retire quantity memo => retire env s quantity memo
  | .transfer f t quantity memo => transfer env s f t quantity memo
  | .«open» owner symbol ram_payer => «open» env s owner symbol ram_payer
  | .close owner symbol => close env s owner symbol
  | .freeze account symbol status => freeze env s account symbol status
  | .setfee issuer symbol fees => setfee env s issuer symbol fees
  | .switchexempt issuer symbol account => switchexempt env s issuer symbol account

/-- Run a sequence of operations; the first failure aborts the run. -/
def runOps (env : Env) (s : Ledger) : List Op → Except Err Ledger
  | [] => .ok s
  | op :: ops =>
      match applyOp env s op with
      | .error e => .error e
      | .ok s1 => runOps env s1 ops

/-- A ledger state reachable from the empty ledger by a sequence of
successful operations. -/
def Reachable (env : Env) (s : Ledger) : Prop :=
  ∃ ops : List Op, runOps env Ledger.empty ops = .ok s

/-- The inductive well-formedness invariant of reachable ledger states:
conservation (per-code supply equals the per-code balance sum, with a
missing `stat` row read as supply 0), non-negative balances, the per-row
`stat` bounds (`fees < 50` from `setfee`'s check and the default,
`0 < max_supply` from `create`'s check, `supply <= max_supply`), and
uniqueness of symbol codes in the `stat` table (guaranteed by `create`'s
existence check). -/
structure Good (s : Ledger) : Prop where
  conserved : ∀ c, supplyAmt s c = sumBalances s.accounts c
  nonneg : ∀ e ∈ s.accounts, 0 ≤ e.2.balance.amount
  statsBounds : ∀ t ∈ s.stats, t.fees < 50 ∧ 0 < t.max_supply.amount ∧
    t.supply.amount ≤ t.max_supply.amount
  statsNodup : (s.stats.map fun t => t.supply.sym.code).Nodup

/-! ## Concrete scenario data used by the witnesses below -/

/-- A permissive environment: every identity is authorized and exists, and
every symbol is valid. -/
def env0 : Env :=
  { self := 100, auth := fun _ => true, is_account := fun _ => true,
    sym_valid := fun _ => true }

/-- An environment in which identity `5` does not exist as an account. -/
def env5 : Env :=
  { self := 100, auth := fun _ => true, is_account := fun n => decide (n ≠ 5),
    sym_valid := fun _ => true }

/-- A sample symbol: code 1, precision 2. -/
def sym0 : Symbol := { code := 1, precision := 2 }

/-- A sample quantity of 200.00 (20000 minor units) of `sym0`. -/
def qty0 : Asset := { amount := 20000, sym := sym0 }

/-- A sample `stat` row: supply 500.00, max supply 1000.00, issuer 1, the
default fee rate 10. -/
def stat0 : CurrencyStats :=
  { supply := { amount := 50000, sym := sym0 },
    max_supply := { amount := 100000, sym := sym0 }, issuer := 1, fees := 10 }

/-- A sample ledger: one token (`stat0`), owner 2 holding 300.00 and the
issuer 1 holding 200.00, no exemptions. -/
def ldg0 : Ledger :=
  { stats := [stat0],
    accounts := [(2, { balance := { amount := 30000, sym := sym0 }, is_frozen := false }),
      (1, { balance := { amount := 20000, sym := sym0 }, is_frozen := false })],
    exempts := [] }

/-- As `ldg0` but with owner 2 fee-exempt. -/
def ldg1 : Ledger := { ldg0 with exempts := [(1, 2)] }

/-- As `ldg0` but with the issuer 1 holding a frozen balance row. -/
def ldg2 : Ledger :=
  { stats := [stat0],
    accounts := [(2, { balance := { amount := 30000, sym := sym0 }, is_frozen := false }),
      (1, { balance := { amount := 20000, sym := sym0 }, is_frozen := true })],
    exempts := [] }

/-- A ledger holding only a frozen, empty balance row for owner 7. -/
def ldgF : Ledger :=
  { stats := [stat0],
    accounts := [(7, { balance := { amount := 0, sym := sym0 }, is_frozen := true })],
    exempts := [] }

/-- The state a successful run ends in (`Ledger.empty` on failure; used only
to name the result of runs that are proved successful). -/
def resultOf (r : Except Err Ledger) : Ledger :=
  match r with
  | .ok s => s
  | .error _ => Ledger.empty

/-- An operation sequence exercising every state-changing path: create,
issue, a fee-paying transfer, open, a fee-exemption toggle, an exempt
transfer, a freeze and unfreeze, a setfee, a retire and a close. -/
def opsW : List Op :=
  [.create 1 { amount := 100000, sym := sym0 },
   .issue 1 { amount := 50000, sym := sym0 } "",
   .transfer 1 2 { amount := 30000, sym := sym0 } "",
   .«open» 4 sym0 1,
   .switchexempt 1 sym0 2,
   .transfer 2 3 { amount := 20000, sym := sym0 } "",
   .freeze 3 sym0 true,
   .freeze 3 sym0 false,
   .setfee 1 sym0 25,
   .retire { amount := 5000, sym := sym0 } "",
   .close 4 sym0]

/-- The state `opsW` reaches from the empty ledger. -/
def stW : Ledger := resultOf (runOps env0 Ledger.empty opsW)

/-- The `stat` row of `stW`: supply 450.00 after the issue and retire, fee
rate 25 after the setfee. -/
def statW : CurrencyStats :=
  { supply := { amount := 45000, sym := sym0 },
    max_supply := { amount := 100000, sym := sym0 }, issuer := 1, fees := 25 }

/-- A ledger in which the issuer 1 holds no balance row at all. -/
def ldg9 : Ledger :=
  { stats := [stat0],
    accounts := [(2, { balance := { amount := 30000, sym := sym0 }, is_frozen := false })],
    exempts := [] }

/-- A second symbol, not registered in any sample ledger. -/
def symB : Symbol := { code := 2, precision := 0 }

/-- A maximum supply of 1000 units of `symB`. -/
def msB : Asset := { amount := 1000, sym := symB }

/-- Decidable equality of operation results, used to evaluate the concrete
witnesses below. -/
instance : DecidableEq (Except Err Ledger) := fun r1 r2 =>
  match r1, r2 with
  | .ok a, .ok b =>
      if h : a = b then .isTrue (by rw [h])
      else .isFalse (fun hh => h (by injection hh))
  | .error a, .error b =>
      if h : a = b then .isTrue (by rw [h])
      else .isFalse (fun hh => h (by injection hh))
  | .ok _, .error _ => .isFalse (fun hh => Except.noConfusion hh)
  | .error _, .ok _ => .isFalse (fun hh => Except.noConfusion hh)

/-! ## Lemmas about the association-list tables -/

theorem subFn_sym (v : Asset) : ∀ x, (subFn v x).balance.sym = x.balance.sym :=
  fun x => rfl

theorem addFn_sym (v : Asset) : ∀ x, (addFn v x).balance.sym = x.balance.sym :=
  fun x => rfl

theorem frzFn_sym (b : Bool) : ∀ x, (frzFn b x).balance.sym = x.balance.sym :=
  fun x => rfl

theorem issueFn_sym (q : Asset) : ∀ x, (issueFn q x).supply.sym = x.supply.sym :=
  fun x => rfl

theorem retireFn_sym (q : Asset) : ∀ x, (retireFn q x).supply.sym = x.supply.sym :=
  fun x => rfl

theorem setfeeFn_sym (n : Nat) : ∀ x, (setfeeFn n x).supply.sym = x.supply.sym :=
  fun x => rfl

theorem findStats_some {l : List CurrencyStats} {c : Nat} {t : CurrencyStats}
    (h : findStats l c = some t) : t.supply.sym.code = c ∧ t ∈ l := by
  induction l with
  | nil => simp [findStats] at h
  | cons e l ih =>
      rw [findStats] at h
      split at h
      · cases h
        exact ⟨by assumption, List.mem_cons_self _ _⟩
      · obtain ⟨h1, h2⟩ := ih h
        exact ⟨h1, List.mem_cons_of_mem _ h2⟩

theorem findAccount_some {l : List (Nat × Account)} {o c : Nat} {a : Account}
    (h : findAccount l o c = some a) : a.balance.sym.code = c ∧ (o, a) ∈ l := by
  induction l with
  | nil => simp [findAccount] at h
  | cons e l ih =>
      rw [findAccount] at h
      split at h
      · cases h
        rename_i hcond
        obtain ⟨h1, h2⟩ := hcond
        constructor
        · exact h2
        · subst h1
          exact List.mem_cons_self _ _
      · obtain ⟨h1, h2⟩ := ih h
        exact ⟨h1, List.mem_cons_of_mem _ h2⟩

theorem findStats_modifyStats_self {l : List CurrencyStats} {c : Nat}
    {f : CurrencyStats → CurrencyStats}
    (hf : ∀ x, (f x).supply.sym = x.supply.sym) :
    findStats (modifyStats l c f) c = (findStats l c).map f := by
  induction l with
  | nil => simp [findStats, modifyStats]
  | cons e l ih =>
      rw [modifyStats]
      split
      · rename_i hc
        rw [findStats, if_pos (by rw [hf]; exact hc), findStats, if_pos hc]
        rfl
      · rename_i hc
        rw [findStats, if_neg hc, findStats, if_neg hc, ih]

theorem findStats_modifyStats_other {l : List CurrencyStats} {c c' : Nat}
    {f : CurrencyStats → CurrencyStats}
    (hf : ∀ x, (f x).supply.sym = x.supply.sym) (hne : c' ≠ c) :
    findStats (modifyStats l c f) c' = findStats l c' := by
  induction l with
  | nil => simp [findStats, modifyStats]
  | cons e l ih =>
      rw [modifyStats]
      split
      · rename_i hc
        rw [findStats, if_neg (by rw [hf, hc]; exact fun h => hne h.symm),
          findStats, if_neg (by rw [hc]; exact fun h => hne h.symm)]
      · rename_i hc
        rw [findStats, findStats, ih]

theorem mem_modifyStats {l : List CurrencyStats} {c : Nat}
    {f : CurrencyStats → CurrencyStats} {x : CurrencyStats}
    (hx : x ∈ modifyStats l c f) :
    x ∈ l ∨ ∃ t, findStats l c = some t ∧ x = f t := by
  induction l with
  | nil => simp [modifyStats] at hx
  | cons e l ih =>
      rw [modifyStats] at hx
      split at hx
      · rename_i hc
        rcases List.mem_cons.mp hx with h | h
        · exact Or.inr ⟨e, by rw [findStats, if_pos hc], h⟩
        · exact Or.inl (List.mem_cons_of_mem _ h)
      · rename_i hc
        rcases List.mem_cons.mp hx with h | h
        · exact Or.inl (h ▸ List.mem_cons_self _ _)
        · rcases ih h with h' | ⟨t, ht, hx'⟩
          · exact Or.inl (List.mem_cons_of_mem _ h')
          · exact Or.inr ⟨t, by rw [findStats, if_neg hc]; exact ht, hx'⟩

theorem findAccount_modifyAccount_self {l : List (Nat × Account)} {o c : Nat}
    {f : Account → Account}
    (hf : ∀ x, (f x).balance.sym = x.balance.sym) :
    findAccount (modifyAccount l o c f) o c = (findAccount l o c).map f := by
  induction l with
  | nil => simp [findAccount, modifyAccount]
  | cons e l ih =>
      rw [modifyAccount]
      split
      · rename_i hc
        rw [findAccount, if_pos ⟨hc.1, by rw [hf]; exact hc.2⟩,
          findAccount, if_pos hc]
        rfl
      · rename_i hc
        rw [findAccount, if_neg hc, findAccount, if_neg hc, ih]

theorem findAccount_modifyAccount_other {l : List (Nat × Account)}
    {o c o' c' : Nat} {f : Account → Account}
    (hf : ∀ x, (f x).balance.sym = x.balance.sym)
    (hne : ¬(o' = o ∧ c' = c)) :
    findAccount (modifyAccount l o c f) o' c' = findAccount l o' c' := by
  induction l with
  | nil => simp [findAccount, modifyAccount]
  | cons e l ih =>
      rw [modifyAccount]
      split
      · rename_i hc
        have hno : ¬(e.1 = o' ∧ (f e.2).balance.sym.code = c') := by
          intro ⟨h1, h2⟩
          exact hne ⟨by rw [← h1, hc.1], by rw [← h2, hf, hc.2]⟩
        have hno' : ¬(e.1 = o' ∧ e.2.balance.sym.code = c') := by
          intro ⟨h1, h2⟩
          exact hne ⟨by rw [← h1, hc.1], by rw [← h2, hc.2]⟩
        rw [findAccount, if_neg hno, findAccount, if_neg hno']
      · rename_i hc
        rw [findAccount, findAccount, ih]

theorem mem_modifyAccount {l : List (Nat × Account)} {o c : Nat}
    {f : Account → Account} {x : Nat × Account}
    (hx : x ∈ modifyAccount l o c f) :
    x ∈ l ∨ ∃ a, findAccount l o c = some a ∧ x = (o, f a) := by
  induction l with
  | nil => simp [modifyAccount] at hx
  | cons e l ih =>
      rw [modifyAccount] at hx
      split at hx
      · rename_i hc
        rcases List.mem_cons.mp hx with h | h
        · refine Or.inr ⟨e.2, by rw [findAccount, if_pos hc], ?_⟩
          rw [h, hc.1]
        · exact Or.inl (List.mem_cons_of_mem _ h)
      · rename_i hc
        rcases List.mem_cons.mp hx with h | h
        · exact Or.inl (h ▸ List.mem_cons_self _ _)
        · rcases ih h with h' | ⟨a, ha, hx'⟩
          · exact Or.inl (List.mem_cons_of_mem _ h')
          · exact Or.inr ⟨a, by rw [findAccount, if_neg hc]; exact ha, hx'⟩

theorem mem_eraseAccount {l : List (Nat × Account)} {o c : Nat}
    {x : Nat × Account} (hx : x ∈ eraseAccount l o c) : x ∈ l := by
  induction l with
  | nil => simp [eraseAccount] at hx
  | cons e l ih =>
      rw [eraseAccount] at hx
      split at hx
      · exact List.mem_cons_of_mem _ hx
      · rcases List.mem_cons.mp hx with h | h
        · exact h ▸ List.mem_cons_self _ _
        · exact List.mem_cons_of_mem _ (ih h)

theorem sumBalances_modifyAccount {l : List (Nat × Account)} {o c : Nat}
    {f : Account → Account} {a : Account} {c' : Nat}
    (ha : findAccount l o c = some a)
    (hf : ∀ x, (f x).balance.sym = x.balance.sym) :
    sumBalances (modifyAccount l o c f) c' =
      sumBalances l c' +
        (if c = c' then (f a).balance.amount - a.balance.amount else 0) := by
  induction l with
  | nil => simp [findAccount] at ha
  | cons e l ih =>
      rw [findAccount] at ha
      rw [modifyAccount]
      split at ha
      · rename_i hc
        cases ha
        rw [if_pos hc, sumBalances, sumBalances, hf]
        rcases eq_or_ne e.2.balance.sym.code c' with h | h
        · rw [if_pos h, if_pos h, if_pos (hc.2 ▸ h)]
          ring
        · rw [if_neg h, if_neg h, if_neg (fun hcc => h (hc.2 ▸ hcc))]
          ring
      · rename_i hc
        rw [if_neg hc, sumBalances, sumBalances, ih ha]
        ring

theorem sumBalances_eraseAccount {l : List (Nat × Account)} {o c : Nat}
    {a : Account} {c' : Nat} (ha : findAccount l o c = some a) :
    sumBalances (eraseAccount l o c) c' =
      sumBalances l c' - (if c = c' then a.balance.amount else 0) := by
  induction l with
  | nil => simp [findAccount] at ha
  | cons e l ih =>
      rw [findAccount] at ha
      rw [eraseAccount]
      split at ha
      · rename_i hc
        cases ha
        rw [if_pos hc, sumBalances]
        rcases eq_or_ne e.2.balance.sym.code c' with h | h
        · rw [if_pos h, if_pos (hc.2 ▸ h)]
          ring
        · rw [if_neg h, if_neg (fun hcc => h (hc.2 ▸ hcc))]
          ring
      · rename_i hc
        rw [if_neg hc]
        simp only [sumBalances]
        rw [ih ha]
        ring

theorem sumBalances_cons {e : Nat × Account} {l : List (Nat × Account)}
    {c : Nat} :
    sumBalances (e :: l) c =
      (if e.2.balance.sym.code = c then e.2.balance.amount else 0) +
        sumBalances l c := rfl

theorem findAccount_cons {e : Nat × Account} {l : List (Nat × Account)}
    {o c : Nat} :
    findAccount (e :: l) o c =
      if e.1 = o ∧ e.2.balance.sym.code = c then some e.2
      else findAccount l o c := rfl

theorem sumBalances_nonneg {l : List (Nat × Account)} {c : Nat}
    (h : ∀ e ∈ l, 0 ≤ e.2.balance.amount) : 0 ≤ sumBalances l c := by
  induction l with
  | nil => simp [sumBalances]
  | cons e l ih =>
      rw [sumBalances]
      have h1 := h e (List.mem_cons_self _ _)
      have h2 := ih fun x hx => h x (List.mem_cons_of_mem _ hx)
      split <;> omega

theorem balance_le_sumBalances {l : List (Nat × Account)} {o c : Nat}
    {a : Account} (ha : findAccount l o c = some a)
    (h : ∀ e ∈ l, 0 ≤ e.2.balance.amount) :
    a.balance.amount ≤ sumBalances l c := by
  induction l with
  | nil => simp [findAccount] at ha
  | cons e l ih =>
      rw [findAccount] at ha
      rw [sumBalances]
      have h2 : 0 ≤ sumBalances l c := sumBalances_nonneg
        fun x hx => h x (List.mem_cons_of_mem _ hx)
      split at ha
      · rename_i hc
        cases ha
        rw [if_pos hc.2]
        omega
      · have h3 := ih ha fun x hx => h x (List.mem_cons_of_mem _ hx)
        have h1 := h e (List.mem_cons_self _ _)
        split <;> omega

theorem modifyStats_map_code {l : List CurrencyStats} {c0 : Nat}
    {f : CurrencyStats → CurrencyStats}
    (hf : ∀ x, (f x).supply.sym = x.supply.sym) :
    ((modifyStats l c0 f).map fun t => t.supply.sym.code) =
      l.map fun t => t.supply.sym.code := by
  induction l with
  | nil => simp [modifyStats]
  | cons e l ih =>
      rw [modifyStats]
      split
      · simp [hf]
      · simp only [List.map_cons, ih]

theorem findStats_none_not_mem {l : List CurrencyStats} {c : Nat}
    (h : findStats l c = none) : ∀ t ∈ l, t.supply.sym.code ≠ c := by
  induction l with
  | nil => simp
  | cons e l ih =>
      rw [findStats] at h
      split at h
      · exact Option.noConfusion h
      · rename_i hc
        intro t ht
        rcases List.mem_cons.mp ht with h' | h'
        · exact h' ▸ hc
        · exact ih h t h'

theorem findStats_of_mem_nodup {l : List CurrencyStats} {t : CurrencyStats}
    (hnd : (l.map fun x => x.supply.sym.code).Nodup) (ht : t ∈ l) :
    findStats l t.supply.sym.code = some t := by
  induction l with
  | nil => simp at ht
  | cons e l ih =>
      rw [List.map_cons, List.nodup_cons] at hnd
      rcases List.mem_cons.mp ht with h' | h'
      · subst h'
        rw [findStats, if_pos rfl]
      · have hne : e.supply.sym.code ≠ t.supply.sym.code := by
          intro hcc
          exact hnd.1 (hcc ▸ List.mem_map_of_mem (fun x => x.supply.sym.code) h')
        rw [findStats, if_neg hne]
        exact ih hnd.2 h'

theorem mem_modifyStats_nodup {l : List CurrencyStats} {c0 : Nat}
    {f : CurrencyStats → CurrencyStats} {x : CurrencyStats}
    (hnd : (l.map fun t => t.supply.sym.code).Nodup)
    (hx : x ∈ modifyStats l c0 f) :
    (∃ t, findStats l c0 = some t ∧ x = f t) ∨
      (x ∈ l ∧ x.supply.sym.code ≠ c0) := by
  induction l with
  | nil => simp [modifyStats] at hx
  | cons e l ih =>
      rw [List.map_cons, List.nodup_cons] at hnd
      rw [modifyStats] at hx
      split at hx
      · rename_i hc
        rcases List.mem_cons.mp hx with h' | h'
        · exact Or.inl ⟨e, by rw [findStats, if_pos hc], h'⟩
        · refine Or.inr ⟨List.mem_cons_of_mem _ h', ?_⟩
          intro hcc
          exact hnd.1 (by
            rw [← hc] at hcc
            exact hcc ▸ List.mem_map_of_mem (fun t => t.supply.sym.code) h')
      · rename_i hc
        rcases List.mem_cons.mp hx with h' | h'
        · exact Or.inr ⟨h' ▸ List.mem_cons_self _ _, h' ▸ hc⟩
        · rcases ih hnd.2 h' with ⟨t, ht, hx'⟩ | ⟨h1, h2⟩
          · exact Or.inl ⟨t, by rw [findStats, if_neg hc]; exact ht, hx'⟩
          · exact Or.inr ⟨List.mem_cons_of_mem _ h1, h2⟩

/-- Bounds on the computed transfer fee for a positive quantity and a fee
rate below the contract's cap of 50: the fee amount is non-negative and
never exceeds the quantity's amount. -/
theorem compute_fee_bounds {q : Asset} {r : Nat} (hq : 0 ≤ q.amount)
    (hr : r < 50) :
    0 ≤ (compute_fee q r).amount ∧ (compute_fee q r).amount ≤ q.amount := by
  obtain ⟨n, hn⟩ := Int.eq_ofNat_of_zero_le hq
  unfold compute_fee
  simp only
  rw [hn]
  have htd : (n : Int).tdiv 10000 = ((n / 10000 : Nat) : Int) := rfl
  rw [htd]
  constructor
  · positivity
  · have h1 : n / 10000 * r ≤ n / 10000 * 10000 :=
      Nat.mul_le_mul_left _ (by omega)
    have h2 : n / 10000 * 10000 ≤ n := Nat.div_mul_le_self n 10000
    exact_mod_cast Nat.le_trans h1 h2

/-! ## Inversion of the two balance-mutation primitives -/

/-- Unfolding of a successful `sub_balance`: the debited row existed with
sufficient balance and was not frozen, and only the `accounts` table
changed, that row's balance decreasing by `value.amount`. -/
theorem sub_balance_ok {s : Ledger} {o : Nat} {v : Asset} {s' : Ledger}
    (h : sub_balance s o v = .ok s') :
    ∃ a, findAccount s.accounts o v.sym.code = some a ∧
      v.amount ≤ a.balance.amount ∧ a.is_frozen = false ∧
      s' = { s with accounts := modifyAccount s.accounts o v.sym.code (subFn v) } := by
  unfold sub_balance at h
  split at h
  · exact Except.noConfusion h
  · rename_i a ha
    split at h
    · exact Except.noConfusion h
    · split at h
      · exact Except.noConfusion h
      · rename_i hlt hfr
        cases h
        exact ⟨a, ha, by omega, by simpa using hfr, rfl⟩

/-- Unfolding of a successful `add_balance`: either no row existed and one
was emplaced with `balance = value` and `is_frozen = false`, or the row
existed, was not frozen, and its balance increased by `value.amount`. -/
theorem add_balance_ok {s : Ledger} {o : Nat} {v : Asset} {p : Nat}
    {s' : Ledger} (h : add_balance s o v p = .ok s') :
    (findAccount s.accounts o v.sym.code = none ∧
      s' = { s with accounts := (o, emplacedRow v) :: s.accounts }) ∨
    (∃ a, findAccount s.accounts o v.sym.code = some a ∧ a.is_frozen = false ∧
      s' = { s with accounts := modifyAccount s.accounts o v.sym.code (addFn v) }) := by
  unfold add_balance at h
  split at h
  · rename_i ha
    cases h
    exact Or.inl ⟨ha, rfl⟩
  · rename_i a ha
    split at h
    · exact Except.noConfusion h
    · rename_i hfr
      cases h
      exact Or.inr ⟨a, ha, by simpa using hfr, rfl⟩

/-- A successful `sub_balance` leaves the `stat` and exemption tables
unchanged and shifts the per-code balance sum down by the debited amount
at the debited symbol code. -/
theorem sub_balance_sum {s : Ledger} {o : Nat} {v : Asset} {s' : Ledger}
    (h : sub_balance s o v = .ok s') (c : Nat) :
    s'.stats = s.stats ∧ s'.exempts = s.exempts ∧
      sumBalances s'.accounts c =
        sumBalances s.accounts c - (if v.sym.code = c then v.amount else 0) := by
  obtain ⟨a, ha, hle, hfr, rfl⟩ := sub_balance_ok h
  refine ⟨rfl, rfl, ?_⟩
  rw [sumBalances_modifyAccount ha (subFn_sym v)]
  simp only [subFn, Asset.sub]
  split <;> ring

/-- A successful `add_balance` leaves the `stat` and exemption tables
unchanged and shifts the per-code balance sum up by the credited amount at
the credited symbol code. -/
theorem add_balance_sum {s : Ledger} {o : Nat} {v : Asset} {p : Nat}
    {s' : Ledger} (h : add_balance s o v p = .ok s') (c : Nat) :
    s'.stats = s.stats ∧ s'.exempts = s.exempts ∧
      sumBalances s'.accounts c =
        sumBalances s.accounts c + (if v.sym.code = c then v.amount else 0) := by
  rcases add_balance_ok h with ⟨ha, rfl⟩ | ⟨a, ha, hfr, rfl⟩
  · refine ⟨rfl, rfl, ?_⟩
    rw [sumBalances_cons]
    simp only [emplacedRow]
    split <;> ring
  · refine ⟨rfl, rfl, ?_⟩
    rw [sumBalances_modifyAccount ha (addFn_sym v)]
    simp only [addFn, Asset.add]
    split <;> ring

/-- A successful `sub_balance` keeps every balance non-negative. -/
theorem sub_balance_nonneg {s : Ledger} {o : Nat} {v : Asset} {s' : Ledger}
    (h : sub_balance s o v = .ok s')
    (hn : ∀ e ∈ s.accounts, 0 ≤ e.2.balance.amount) :
    ∀ e ∈ s'.accounts, 0 ≤ e.2.balance.amount := by
  obtain ⟨a, ha, hle, hfr, rfl⟩ := sub_balance_ok h
  intro e he
  rcases mem_modifyAccount he with h' | ⟨b, hb, rfl⟩
  · exact hn e h'
  · have : b = a := by rw [hb] at ha; cases ha; rfl
    subst this
    simp only [subFn, Asset.sub]
    omega

/-- A successful `add_balance` of a non-negative amount keeps every balance
non-negative. -/
theorem add_balance_nonneg {s : Ledger} {o : Nat} {v : Asset} {p : Nat}
    {s' : Ledger} (h : add_balance s o v p = .ok s') (hv : 0 ≤ v.amount)
    (hn : ∀ e ∈ s.accounts, 0 ≤ e.2.balance.amount) :
    ∀ e ∈ s'.accounts, 0 ≤ e.2.balance.amount := by
  rcases add_balance_ok h with ⟨ha, rfl⟩ | ⟨a, ha, hfr, rfl⟩
  · intro e he
    rcases List.mem_cons.mp he with h' | h'
    · subst h'
      exact hv
    · exact hn e h'
  · intro e he
    rcases mem_modifyAccount he with h' | ⟨b, hb, rfl⟩
    · exact hn e h'
    · have hba := hn (o, b) (findAccount_some hb).2
      simp only [addFn, Asset.add]
      simp only at hba
      omega

/-- Effect of a successful `sub_balance` on the debited holder's visible
balance. -/
theorem sub_balance_balOf_self {s : Ledger} {o : Nat} {v : Asset}
    {s' : Ledger} (h : sub_balance s o v = .ok s') :
    balOf s' o v.sym.code = balOf s o v.sym.code - v.amount := by
  obtain ⟨a, ha, hle, hfr, rfl⟩ := sub_balance_ok h
  unfold balOf
  simp only
  rw [findAccount_modifyAccount_self (subFn_sym v), ha]
  rfl

/-- A successful `sub_balance` does not touch any other (owner, code)
balance. -/
theorem sub_balance_balOf_other {s : Ledger} {o : Nat} {v : Asset}
    {s' : Ledger} {o' c' : Nat} (h : sub_balance s o v = .ok s')
    (hne : ¬(o' = o ∧ c' = v.sym.code)) :
    balOf s' o' c' = balOf s o' c' := by
  obtain ⟨a, ha, hle, hfr, rfl⟩ := sub_balance_ok h
  unfold balOf
  simp only
  rw [findAccount_modifyAccount_other (subFn_sym v) hne]

/-- A successful `sub_balance` does not change the rows of other
(owner, code) keys at all. -/
theorem sub_balance_find_other {s : Ledger} {o : Nat} {v : Asset}
    {s' : Ledger} {o' c' : Nat} (h : sub_balance s o v = .ok s')
    (hne : ¬(o' = o ∧ c' = v.sym.code)) :
    findAccount s'.accounts o' c' = findAccount s.accounts o' c' := by
  obtain ⟨a, ha, hle, hfr, rfl⟩ := sub_balance_ok h
  exact findAccount_modifyAccount_other (subFn_sym v) hne

/-- Effect of a successful `add_balance` on the credited holder's visible
balance. -/
theorem add_balance_balOf_self {s : Ledger} {o : Nat} {v : Asset} {p : Nat}
    {s' : Ledger} (h : add_balance s o v p = .ok s') :
    balOf s' o v.sym.code = balOf s o v.sym.code + v.amount := by
  rcases add_balance_ok h with ⟨ha, rfl⟩ | ⟨a, ha, hfr, rfl⟩
  · unfold balOf
    simp only
    rw [findAccount_cons, if_pos ⟨rfl, rfl⟩, ha]
    simp [emplacedRow]
  · unfold balOf
    simp only
    rw [findAccount_modifyAccount_self (addFn_sym v), ha]
    simp only [Option.map_some]
    rfl

/-- A successful `add_balance` does not touch any other (owner, code)
balance. -/
theorem add_balance_balOf_other {s : Ledger} {o : Nat} {v : Asset} {p : Nat}
    {s' : Ledger} {o' c' : Nat} (h : add_balance s o v p = .ok s')
    (hne : ¬(o' = o ∧ c' = v.sym.code)) :
    balOf s' o' c' = balOf s o' c' := by
  rcases add_balance_ok h with ⟨ha, rfl⟩ | ⟨a, ha, hfr, rfl⟩
  · unfold balOf
    simp only
    rw [findAccount_cons, if_neg (by
      intro ⟨h1, h2⟩
      exact hne ⟨h1.symm, h2.symm⟩)]
  · unfold balOf
    simp only
    rw [findAccount_modifyAccount_other (addFn_sym v) hne]

/-- A successful `add_balance` does not change the rows of other
(owner, code) keys at all. -/
theorem add_balance_find_other {s : Ledger} {o : Nat} {v : Asset} {p : Nat}
    {s' : Ledger} {o' c' : Nat} (h : add_balance s o v p = .ok s')
    (hne : ¬(o' = o ∧ c' = v.sym.code)) :
    findAccount s'.accounts o' c' = findAccount s.accounts o' c' := by
  rcases add_balance_ok h with ⟨ha, rfl⟩ | ⟨a, ha, hfr, rfl⟩
  · simp only
    rw [findAccount_cons, if_neg (by
      intro ⟨h1, h2⟩
      exact hne ⟨h1.symm, h2.symm⟩)]
  · exact findAccount_modifyAccount_other (addFn_sym v) hne

/-- After a successful `add_balance` the credited holder owns a row for the
credited symbol code. -/
theorem add_balance_find_self {s : Ledger} {o : Nat} {v : Asset} {p : Nat}
    {s' : Ledger} (h : add_balance s o v p = .ok s') :
    ∃ a', findAccount s'.accounts o v.sym.code = some a' := by
  rcases add_balance_ok h with ⟨ha, rfl⟩ | ⟨a, ha, hfr, rfl⟩
  · exact ⟨_, by simp only; rw [findAccount_cons, if_pos ⟨rfl, rfl⟩]⟩
  · exact ⟨addFn v a, by
      simp only
      rw [findAccount_modifyAccount_self (addFn_sym v), ha]
      rfl⟩

/-! ## Inversion of the nine operations -/

/-- Unfolding of a successful `create`: every check passed — in particular
no `stat` row existed for the code — and the new row was prepended.  No
clause concerns `env.is_account issuer`: `create` never consults it. -/
theorem create_ok {env : Env} {s : Ledger} {issuer : Nat} {ms : Asset}
    {s' : Ledger} (h : create env s issuer ms = .ok s') :
    env.auth env.self = true ∧ env.sym_valid ms.sym = true ∧
      assetValid env ms = true ∧ 0 < ms.amount ∧
      findStats s.stats ms.sym.code = none ∧
      s' = { s with stats := createdRow issuer ms :: s.stats } := by
  unfold create at h
  split at h
  · exact Except.noConfusion h
  rename_i h1
  split at h
  · exact Except.noConfusion h
  rename_i h2
  split at h
  · exact Except.noConfusion h
  rename_i h3
  split at h
  · exact Except.noConfusion h
  rename_i h4
  split at h
  · exact Except.noConfusion h
  rename_i hfound
  cases h
  exact ⟨by simpa using h1, by simpa using h2, by simpa using h3,
    by omega, hfound, rfl⟩

/-- Unfolding of a successful `setfee`: the caller is the stored issuer,
the new rate is below 50, and only `fees` of the matching row changed. -/
theorem setfee_ok {env : Env} {s : Ledger} {issuer : Nat} {symbol : Symbol}
    {fees : Nat} {s' : Ledger} (h : setfee env s issuer symbol fees = .ok s') :
    ∃ t, findStats s.stats symbol.code = some t ∧ env.auth issuer = true ∧
      fees < 50 ∧ env.sym_valid symbol = true ∧ t.issuer = issuer ∧
      s' = { s with stats := modifyStats s.stats symbol.code (setfeeFn fees) } := by
  unfold setfee at h
  split at h
  · exact Except.noConfusion h
  rename_i h1
  split at h
  · exact Except.noConfusion h
  rename_i h2
  split at h
  · exact Except.noConfusion h
  rename_i h3
  split at h
  · exact Except.noConfusion h
  rename_i t hfind
  split at h
  · exact Except.noConfusion h
  rename_i h4
  cases h
  exact ⟨t, hfind, by simpa using h1, by omega, by simpa using h3,
    by simpa using h4, rfl⟩

/-- Unfolding of a successful `issue`: every check passed — in particular
`to` is the stored issuer and the issued amount fits under the supply
ceiling — and the final state is `add_balance` applied for the issuer on
the supply-incremented ledger. -/
theorem issue_ok {env : Env} {s : Ledger} {tn : Nat} {q : Asset}
    {memo : String} {s' : Ledger} (h : issue env s tn q memo = .ok s') :
    ∃ t, findStats s.stats q.sym.code = some t ∧
      env.sym_valid q.sym = true ∧ memo.length ≤ 256 ∧ tn = t.issuer ∧
      env.auth t.issuer = true ∧ assetValid env q = true ∧ 0 < q.amount ∧
      q.sym = t.supply.sym ∧
      q.amount ≤ t.max_supply.amount - t.supply.amount ∧
      add_balance { s with stats := modifyStats s.stats q.sym.code (issueFn q) }
        t.issuer q t.issuer = .ok s' := by
  unfold issue at h
  split at h
  · exact Except.noConfusion h
  rename_i h1
  split at h
  · exact Except.noConfusion h
  rename_i h2
  split at h
  · exact Except.noConfusion h
  rename_i t hfind
  split at h
  · exact Except.noConfusion h
  rename_i h3
  split at h
  · exact Except.noConfusion h
  rename_i h4
  split at h
  · exact Except.noConfusion h
  rename_i h5
  split at h
  · exact Except.noConfusion h
  rename_i h6
  split at h
  · exact Except.noConfusion h
  rename_i h7
  split at h
  · exact Except.noConfusion h
  rename_i h8
  exact ⟨t, hfind, by simpa using h1, by omega, by simpa using h3,
    by simpa using h4, by simpa using h5, by omega, by simpa using h7,
    by omega, h⟩

/-- Unfolding of a successful `retire`: every check passed and the final
state is `sub_balance` applied for the issuer on the supply-decremented
ledger.  Note `retire` has no lower-bound check of its own on the new
supply. -/
theorem retire_ok {env : Env} {s : Ledger} {q : Asset} {memo : String}
    {s' : Ledger} (h : retire env s q memo = .ok s') :
    ∃ t, findStats s.stats q.sym.code = some t ∧
      env.sym_valid q.sym = true ∧ memo.length ≤ 256 ∧
      env.auth t.issuer = true ∧ assetValid env q = true ∧ 0 < q.amount ∧
      q.sym = t.supply.sym ∧
      sub_balance { s with stats := modifyStats s.stats q.sym.code (retireFn q) }
        t.issuer q = .ok s' := by
  unfold retire at h
  split at h
  · exact Except.noConfusion h
  rename_i h1
  split at h
  · exact Except.noConfusion h
  rename_i h2
  split at h
  · exact Except.noConfusion h
  rename_i t hfind
  split at h
  · exact Except.noConfusion h
  rename_i h3
  split at h
  · exact Except.noConfusion h
  rename_i h4
  split at h
  · exact Except.noConfusion h
  rename_i h5
  split at h
  · exact Except.noConfusion h
  rename_i h6
  exact ⟨t, hfind, by simpa using h1, by omega, by simpa using h3,
    by simpa using h4, by omega, by simpa using h6, h⟩

/-- Unfolding of a successful `open`: the payer is authorized, the owner
exists, the `stat` row exists with the exact symbol, and either a row
already existed (silent no-op) or the zero-balance row was emplaced. -/
theorem open_ok {env : Env} {s : Ledger} {owner : Nat} {symbol : Symbol}
    {p : Nat} {s' : Ledger} (h : «open» env s owner symbol p = .ok s') :
    env.auth p = true ∧ env.is_account owner = true ∧
      ∃ t, findStats s.stats symbol.code = some t ∧ t.supply.sym = symbol ∧
        ((∃ a, findAccount s.accounts owner symbol.code = some a ∧ s' = s) ∨
          (findAccount s.accounts owner symbol.code = none ∧
            s' = { s with accounts := (owner, openedRow symbol) :: s.accounts })) := by
  unfold «open» at h
  split at h
  · exact Except.noConfusion h
  rename_i h1
  split at h
  · exact Except.noConfusion h
  rename_i h2
  split at h
  · exact Except.noConfusion h
  rename_i t hfind
  split at h
  · exact Except.noConfusion h
  rename_i h3
  split at h
  · rename_i a ha
    cases h
    exact ⟨by simpa using h1, by simpa using h2, t, hfind, by simpa using h3,
      Or.inl ⟨a, ha, rfl⟩⟩
  · rename_i ha
    cases h
    exact ⟨by simpa using h1, by simpa using h2, t, hfind, by simpa using h3,
      Or.inr ⟨ha, rfl⟩⟩

/-- Unfolding of a successful `close`: the owner is authorized, the row
exists with a zero balance, and it is erased. -/
theorem close_ok {env : Env} {s : Ledger} {owner : Nat} {symbol : Symbol}
    {s' : Ledger} (h : close env s owner symbol = .ok s') :
    env.auth owner = true ∧
      ∃ a, findAccount s.accounts owner symbol.code = some a ∧
        a.balance.amount = 0 ∧
        s' = { s with accounts := eraseAccount s.accounts owner symbol.code } := by
  unfold close at h
  split at h
  · exact Except.noConfusion h
  rename_i h1
  split at h
  · exact Except.noConfusion h
  rename_i a ha
  split at h
  · exact Except.noConfusion h
  rename_i h2
  cases h
  exact ⟨by simpa using h1, a, ha, by omega, rfl⟩

/-- Unfolding of a successful `freeze`: the `stat` row exists, its issuer is
authorized, the target row exists, and only its `is_frozen` flag is set. -/
theorem freeze_ok {env : Env} {s : Ledger} {account : Nat} {symbol : Symbol}
    {status : Bool} {s' : Ledger} (h : freeze env s account symbol status = .ok s') :
    ∃ t, findStats s.stats symbol.code = some t ∧ env.auth t.issuer = true ∧
      (∃ a, findAccount s.accounts account symbol.code = some a) ∧
      s' = { s with accounts :=
        modifyAccount s.accounts account symbol.code (frzFn status) } := by
  unfold freeze at h
  split at h
  · exact Except.noConfusion h
  rename_i t hfind
  split at h
  · exact Except.noConfusion h
  rename_i h1
  split at h
  · exact Except.noConfusion h
  rename_i a ha
  cases h
  exact ⟨t, hfind, by simpa using h1, ⟨a, ha⟩, rfl⟩

/-- Unfolding of a successful `switchexempt`: the caller is the stored
issuer, the named account exists, and only the exemption table changes:
membership of (code, account) is toggled. -/
theorem switchexempt_ok {env : Env} {s : Ledger} {issuer : Nat}
    {symbol : Symbol} {account : Nat} {s' : Ledger}
    (h : switchexempt env s issuer symbol account = .ok s') :
    env.auth issuer = true ∧ env.sym_valid symbol = true ∧
      env.is_account account = true ∧
      (∃ t, findStats s.stats symbol.code = some t ∧ t.issuer = issuer) ∧
      s'.stats = s.stats ∧ s'.accounts = s.accounts ∧
      s'.exempts = (if findExempt s.exempts symbol.code account then
        eraseExempt s.exempts symbol.code account
        else (symbol.code, account) :: s.exempts) := by
  unfold switchexempt at h
  split at h
  · exact Except.noConfusion h
  rename_i h1
  split at h
  · exact Except.noConfusion h
  rename_i h2
  split at h
  · exact Except.noConfusion h
  rename_i h3
  split at h
  · exact Except.noConfusion h
  rename_i t hfind
  split at h
  · exact Except.noConfusion h
  rename_i h4
  split at h
  · rename_i hex
    cases h
    exact ⟨by simpa using h1, by simpa using h2, by simpa using h3,
      ⟨t, hfind, by simpa using h4⟩, rfl, rfl, by rw [if_pos hex]⟩
  · rename_i hex
    cases h
    refine ⟨by simpa using h1, by simpa using h2, by simpa using h3,
      ⟨t, hfind, by simpa using h4⟩, rfl, rfl, ?_⟩
    rw [if_neg hex]

/-- Unfolding of a successful `logfee`: the contract account is authorized
and the state is unchanged. -/
theorem logfee_ok {env : Env} {s : Ledger} {account : Nat} {fee : Asset}
    {s' : Ledger} (h : logfee env s account fee = .ok s') :
    env.auth env.self = true ∧ s' = s := by
  unfold logfee at h
  split at h
  · exact Except.noConfusion h
  rename_i h1
  cases h
  exact ⟨by simpa using h1, rfl⟩

/-- Unfolding of a successful `transfer_branch`: depending on the sender's
exemption, the debit/credit pair that ran, ending (after the no-op `logfee`)
in the pre-issuer-credit state. -/
theorem transfer_branch_ok {env : Env} {s : Ledger} {f tn : Nat} {q : Asset}
    {t : CurrencyStats} {s2 : Ledger}
    (h : transfer_branch env s f tn q t = .ok s2) :
    env.auth env.self = true ∧
      ∃ s1, (if findExempt s.exempts q.sym.code f then
          sub_balance s f q = .ok s1 ∧
            add_balance s1 tn (q.sub (compute_fee q t.fees)) (payerOf env f tn) = .ok s2
        else
          sub_balance s f (q.add (compute_fee q t.fees)) = .ok s1 ∧
            add_balance s1 tn q (payerOf env f tn) = .ok s2) := by
  unfold transfer_branch at h
  split at h
  · rename_i hex
    split at h
    · exact Except.noConfusion h
    rename_i s1 hsb
    split at h
    · exact Except.noConfusion h
    rename_i s2' hab
    obtain ⟨hself, rfl⟩ := logfee_ok h
    exact ⟨hself, s1, by rw [if_pos hex]; exact ⟨hsb, hab⟩⟩
  · rename_i hex
    split at h
    · exact Except.noConfusion h
    rename_i s1 hsb
    split at h
    · exact Except.noConfusion h
    rename_i s2' hab
    obtain ⟨hself, rfl⟩ := logfee_ok h
    exact ⟨hself, s1, by rw [if_neg hex]; exact ⟨hsb, hab⟩⟩

/-- Unfolding of a successful `transfer`: every check passed, the
exemption-dependent branch ran, and the issuer was credited the fee. -/
theorem transfer_ok {env : Env} {s : Ledger} {f tn : Nat} {q : Asset}
    {memo : String} {s' : Ledger} (h : transfer env s f tn q memo = .ok s') :
    f ≠ tn ∧ env.auth f = true ∧ env.is_account tn = true ∧
      ∃ t, findStats s.stats q.sym.code = some t ∧
        assetValid env q = true ∧ 0 < q.amount ∧ q.sym = t.supply.sym ∧
        memo.length ≤ 256 ∧
        ∃ s3, transfer_branch env s f tn q t = .ok s3 ∧
          add_balance s3 t.issuer (compute_fee q t.fees) (payerOf env f tn) = .ok s' := by
  unfold transfer at h
  split at h
  · exact Except.noConfusion h
  rename_i h0
  split at h
  · exact Except.noConfusion h
  rename_i h1
  split at h
  · exact Except.noConfusion h
  rename_i h2
  split at h
  · exact Except.noConfusion h
  rename_i t hfind
  split at h
  · exact Except.noConfusion h
  rename_i h3
  split at h
  · exact Except.noConfusion h
  rename_i h4
  split at h
  · exact Except.noConfusion h
  rename_i h5
  split at h
  · exact Except.noConfusion h
  rename_i h6
  split at h
  · exact Except.noConfusion h
  rename_i s3 hbr
  exact ⟨h0, by simpa using h1, by simpa using h2, t, hfind,
    by simpa using h3, by omega, by simpa using h5, by omega, s3, hbr, h⟩

/-! ## Preservation of the invariant by each operation -/

theorem supplyAmt_eq_of_find {s : Ledger} {c : Nat} {t : CurrencyStats}
    (h : findStats s.stats c = some t) : supplyAmt s c = t.supply.amount := by
  unfold supplyAmt
  rw [h]

theorem supplyAmt_eq_zero_of_none {s : Ledger} {c : Nat}
    (h : findStats s.stats c = none) : supplyAmt s c = 0 := by
  unfold supplyAmt
  rw [h]

theorem create_good {env : Env} {s : Ledger} {issuer : Nat} {ms : Asset}
    {s' : Ledger} (hg : Good s) (h : create env s issuer ms = .ok s') :
    Good s' := by
  obtain ⟨hauth, hsym, hval, hpos, hnone, rfl⟩ := create_ok h
  have hzero : sumBalances s.accounts ms.sym.code = 0 := by
    rw [← hg.conserved ms.sym.code, supplyAmt_eq_zero_of_none hnone]
  refine ⟨?_, hg.nonneg, ?_, ?_⟩
  · intro c
    rcases eq_or_ne ms.sym.code c with hc | hc
    · subst hc
      have : findStats (createdRow issuer ms :: s.stats) ms.sym.code =
          some (createdRow issuer ms) := by
        rw [findStats,
          if_pos (show (createdRow issuer ms).supply.sym.code = ms.sym.code from rfl)]
      rw [supplyAmt_eq_of_find this]
      simp only [createdRow]
      exact hzero.symm
    · have : findStats (createdRow issuer ms :: s.stats) c =
          findStats s.stats c := by
        rw [findStats, if_neg (by simpa [createdRow] using hc)]
      unfold supplyAmt
      simp only [this]
      exact hg.conserved c
  · intro t ht
    rcases List.mem_cons.mp ht with h' | h'
    · subst h'
      refine ⟨by norm_num [createdRow], by simpa [createdRow] using hpos,
        by simp [createdRow]; omega⟩
    · exact hg.statsBounds t h'
  · simp only [List.map_cons]
    rw [List.nodup_cons]
    refine ⟨?_, hg.statsNodup⟩
    intro hmem
    obtain ⟨t, ht, hcc⟩ := List.mem_map.mp hmem
    exact findStats_none_not_mem hnone t ht (by simpa [createdRow] using hcc)

theorem setfee_good {env : Env} {s : Ledger} {issuer : Nat} {symbol : Symbol}
    {fees : Nat} {s' : Ledger} (hg : Good s)
    (h : setfee env s issuer symbol fees = .ok s') : Good s' := by
  obtain ⟨t, hfind, hauth, hlt, hsym, hiss, rfl⟩ := setfee_ok h
  refine ⟨?_, hg.nonneg, ?_, ?_⟩
  · intro c
    rcases eq_or_ne symbol.code c with hc | hc
    · subst hc
      have : findStats (modifyStats s.stats symbol.code (setfeeFn fees))
          symbol.code = some (setfeeFn fees t) := by
        rw [findStats_modifyStats_self (setfeeFn_sym fees), hfind]
        rfl
      rw [supplyAmt_eq_of_find this]
      have := hg.conserved symbol.code
      rw [supplyAmt_eq_of_find hfind] at this
      exact this
    · have : findStats (modifyStats s.stats symbol.code (setfeeFn fees)) c =
          findStats s.stats c :=
        findStats_modifyStats_other (setfeeFn_sym fees) hc.symm
      unfold supplyAmt
      simp only [this]
      exact hg.conserved c
  · intro x hx
    rcases mem_modifyStats_nodup hg.statsNodup hx with ⟨t0, ht0, rfl⟩ | ⟨h1, _⟩
    · rw [hfind] at ht0
      cases ht0
      obtain ⟨b1, b2, b3⟩ := hg.statsBounds t (findStats_some hfind).2
      exact ⟨hlt, b2, b3⟩
    · exact hg.statsBounds x h1
  · rw [modifyStats_map_code (setfeeFn_sym fees)]
    exact hg.statsNodup

theorem issue_good {env : Env} {s : Ledger} {tn : Nat} {q : Asset}
    {memo : String} {s' : Ledger} (hg : Good s)
    (h : issue env s tn q memo = .ok s') : Good s' := by
  obtain ⟨t, hfind, hsym, hmemo, hto, hauth, hval, hq, hqs, hceil, hab⟩ :=
    issue_ok h
  have haccs : ({ s with stats := modifyStats s.stats q.sym.code (issueFn q) } :
      Ledger).accounts = s.accounts := rfl
  have hsts : ({ s with stats := modifyStats s.stats q.sym.code (issueFn q) } :
      Ledger).stats = modifyStats s.stats q.sym.code (issueFn q) := rfl
  refine ⟨?_, ?_, ?_, ?_⟩
  · intro c
    obtain ⟨hst, hex, hsum⟩ := add_balance_sum hab c
    rw [haccs] at hsum
    rw [hsts] at hst
    rcases eq_or_ne q.sym.code c with hc | hc
    · subst hc
      have hf' : findStats s'.stats q.sym.code = some (issueFn q t) := by
        rw [hst, findStats_modifyStats_self (issueFn_sym q), hfind]
        rfl
      rw [supplyAmt_eq_of_find hf', hsum, if_pos rfl]
      have hcons := hg.conserved q.sym.code
      rw [supplyAmt_eq_of_find hfind] at hcons
      simp only [issueFn, Asset.add]
      omega
    · have hf' : findStats s'.stats c = findStats s.stats c := by
        rw [hst]
        exact findStats_modifyStats_other (issueFn_sym q) hc.symm
      unfold supplyAmt
      simp only [hf']
      rw [hsum, if_neg hc]
      have hcons := hg.conserved c
      unfold supplyAmt at hcons
      omega
  · have := add_balance_nonneg hab (by omega)
    rw [haccs] at this
    exact this hg.nonneg
  · intro x hx
    obtain ⟨hst, hex, hsum⟩ := add_balance_sum hab 0
    rw [hsts] at hst
    rw [hst] at hx
    rcases mem_modifyStats_nodup hg.statsNodup hx with ⟨t0, ht0, rfl⟩ | ⟨h1, _⟩
    · rw [hfind] at ht0
      cases ht0
      obtain ⟨b1, b2, b3⟩ := hg.statsBounds t (findStats_some hfind).2
      refine ⟨b1, b2, ?_⟩
      simp only [issueFn, Asset.add]
      omega
    · exact hg.statsBounds x h1
  · obtain ⟨hst, hex, hsum⟩ := add_balance_sum hab 0
    rw [hsts] at hst
    rw [hst, modifyStats_map_code (issueFn_sym q)]
    exact hg.statsNodup

theorem retire_good {env : Env} {s : Ledger} {q : Asset} {memo : String}
    {s' : Ledger} (hg : Good s) (h : retire env s q memo = .ok s') :
    Good s' := by
  obtain ⟨t, hfind, hsym, hmemo, hauth, hval, hq, hqs, hsb⟩ := retire_ok h
  have haccs : ({ s with stats := modifyStats s.stats q.sym.code (retireFn q) } :
      Ledger).accounts = s.accounts := rfl
  have hsts : ({ s with stats := modifyStats s.stats q.sym.code (retireFn q) } :
      Ledger).stats = modifyStats s.stats q.sym.code (retireFn q) := rfl
  refine ⟨?_, ?_, ?_, ?_⟩
  · intro c
    obtain ⟨hst, hex, hsum⟩ := sub_balance_sum hsb c
    rw [haccs] at hsum
    rw [hsts] at hst
    rcases eq_or_ne q.sym.code c with hc | hc
    · subst hc
      have hf' : findStats s'.stats q.sym.code = some (retireFn q t) := by
        rw [hst, findStats_modifyStats_self (retireFn_sym q), hfind]
        rfl
      rw [supplyAmt_eq_of_find hf', hsum, if_pos rfl]
      have hcons := hg.conserved q.sym.code
      rw [supplyAmt_eq_of_find hfind] at hcons
      simp only [retireFn, Asset.sub]
      omega
    · have hf' : findStats s'.stats c = findStats s.stats c := by
        rw [hst]
        exact findStats_modifyStats_other (retireFn_sym q) hc.symm
      unfold supplyAmt
      simp only [hf']
      rw [hsum, if_neg hc]
      have hcons := hg.conserved c
      unfold supplyAmt at hcons
      omega
  · have := sub_balance_nonneg hsb
    rw [haccs] at this
    exact this hg.nonneg
  · intro x hx
    obtain ⟨hst, hex, hsum⟩ := sub_balance_sum hsb 0
    rw [hsts] at hst
    rw [hst] at hx
    rcases mem_modifyStats_nodup hg.statsNodup hx with ⟨t0, ht0, rfl⟩ | ⟨h1, _⟩
    · rw [hfind] at ht0
      cases ht0
      obtain ⟨b1, b2, b3⟩ := hg.statsBounds t (findStats_some hfind).2
      refine ⟨b1, b2, ?_⟩
      simp only [retireFn, Asset.sub]
      omega
    · exact hg.statsBounds x h1
  · obtain ⟨hst, hex, hsum⟩ := sub_balance_sum hsb 0
    rw [hsts] at hst
    rw [hst, modifyStats_map_code (retireFn_sym q)]
    exact hg.statsNodup

theorem transfer_good {env : Env} {s : Ledger} {f tn : Nat} {q : Asset}
    {memo : String} {s' : Ledger} (hg : Good s)
    (h : transfer env s f tn q memo = .ok s') : Good s' := by
  obtain ⟨hne, hauth, hacct, t, hfind, hval, hq, hqs, hmemo, s3, hbr, hab⟩ :=
    transfer_ok h
  obtain ⟨hself, s1, hbranch⟩ := transfer_branch_ok hbr
  have hfees : t.fees < 50 := (hg.statsBounds t (findStats_some hfind).2).1
  obtain ⟨hfee0, hfee1⟩ := compute_fee_bounds (le_of_lt hq) hfees
  have hq1 : (q.add (compute_fee q t.fees)).sym.code = q.sym.code := rfl
  have hq2 : (q.sub (compute_fee q t.fees)).sym.code = q.sym.code := rfl
  have hq3 : (compute_fee q t.fees).sym.code = q.sym.code := rfl
  have hstep :
      s3.stats = s.stats ∧
      (∀ c, sumBalances s3.accounts c =
        sumBalances s.accounts c - (if q.sym.code = c then
          (compute_fee q t.fees).amount else 0)) ∧
      (∀ e ∈ s3.accounts, 0 ≤ e.2.balance.amount) := by
    split at hbranch
    · obtain ⟨hsb, hab2⟩ := hbranch
      refine ⟨by rw [(add_balance_sum hab2 0).1, (sub_balance_sum hsb 0).1], ?_, ?_⟩
      · intro c
        obtain ⟨g1, g2, g3⟩ := sub_balance_sum hsb c
        obtain ⟨g4, g5, g6⟩ := add_balance_sum hab2 c
        rw [hq2] at g6
        rw [g6, g3]
        simp only [Asset.sub]
        rcases eq_or_ne q.sym.code c with hc | hc
        · simp only [if_pos hc]
          ring
        · simp only [if_neg hc]
          ring
      · exact add_balance_nonneg hab2 (by simp only [Asset.sub]; omega)
          (sub_balance_nonneg hsb hg.nonneg)
    · obtain ⟨hsb, hab2⟩ := hbranch
      refine ⟨by rw [(add_balance_sum hab2 0).1, (sub_balance_sum hsb 0).1], ?_, ?_⟩
      · intro c
        obtain ⟨g1, g2, g3⟩ := sub_balance_sum hsb c
        obtain ⟨g4, g5, g6⟩ := add_balance_sum hab2 c
        rw [hq1] at g3
        rw [g6, g3]
        simp only [Asset.add]
        rcases eq_or_ne q.sym.code c with hc | hc
        · simp only [if_pos hc]
          ring
        · simp only [if_neg hc]
          ring
      · exact add_balance_nonneg hab2 (by omega)
          (sub_balance_nonneg hsb hg.nonneg)
  obtain ⟨hs3stats, hs3sum, hs3nonneg⟩ := hstep
  refine ⟨?_, ?_, ?_, ?_⟩
  · intro c
    obtain ⟨g1, g2, g3⟩ := add_balance_sum hab c
    rw [hq3] at g3
    have hstats : s'.stats = s.stats := by rw [g1, hs3stats]
    unfold supplyAmt
    rw [hstats]
    rw [g3, hs3sum c]
    have hcons := hg.conserved c
    unfold supplyAmt at hcons
    rcases eq_or_ne q.sym.code c with hc | hc
    · simp only [if_pos hc]
      omega
    · simp only [if_neg hc]
      omega
  · exact add_balance_nonneg hab hfee0 hs3nonneg
  · intro x hx
    rw [(add_balance_sum hab 0).1, hs3stats] at hx
    exact hg.statsBounds x hx
  · rw [(add_balance_sum hab 0).1, hs3stats]
    exact hg.statsNodup

theorem open_good {env : Env} {s : Ledger} {owner : Nat} {symbol : Symbol}
    {p : Nat} {s' : Ledger} (hg : Good s)
    (h : «open» env s owner symbol p = .ok s') : Good s' := by
  obtain ⟨hauth, hacct, t, hfind, hsym, hcase⟩ := open_ok h
  rcases hcase with ⟨a, ha, rfl⟩ | ⟨ha, rfl⟩
  · exact hg
  · refine ⟨?_, ?_, hg.statsBounds, hg.statsNodup⟩
    · intro c
      unfold supplyAmt
      simp only
      rw [sumBalances_cons]
      have : (if (owner, openedRow symbol).2.balance.sym.code = c then
          (owner, openedRow symbol).2.balance.amount else 0) = 0 := by
        simp [openedRow]
      rw [this]
      have := hg.conserved c
      unfold supplyAmt at this
      omega
    · intro e he
      rcases List.mem_cons.mp he with h' | h'
      · subst h'
        simp [openedRow]
      · exact hg.nonneg e h'

theorem close_good {env : Env} {s : Ledger} {owner : Nat} {symbol : Symbol}
    {s' : Ledger} (hg : Good s) (h : close env s owner symbol = .ok s') :
    Good s' := by
  obtain ⟨hauth, a, ha, hzero, rfl⟩ := close_ok h
  refine ⟨?_, ?_, hg.statsBounds, hg.statsNodup⟩
  · intro c
    unfold supplyAmt
    simp only
    rw [sumBalances_eraseAccount ha, hzero]
    have hif : (if symbol.code = c then (0:Int) else 0) = 0 := by
      rcases eq_or_ne symbol.code c with hc | hc
      · rw [if_pos hc]
      · rw [if_neg hc]
    rw [hif]
    have hcons := hg.conserved c
    unfold supplyAmt at hcons
    omega
  · intro e he
    exact hg.nonneg e (mem_eraseAccount he)

theorem freeze_good {env : Env} {s : Ledger} {account : Nat} {symbol : Symbol}
    {status : Bool} {s' : Ledger} (hg : Good s)
    (h : freeze env s account symbol status = .ok s') : Good s' := by
  obtain ⟨t, hfind, hauth, ⟨a, ha⟩, rfl⟩ := freeze_ok h
  refine ⟨?_, ?_, hg.statsBounds, hg.statsNodup⟩
  · intro c
    unfold supplyAmt
    simp only
    rw [sumBalances_modifyAccount ha (frzFn_sym status)]
    have : (frzFn status a).balance.amount - a.balance.amount = 0 := by
      simp [frzFn]
    rw [this]
    have hif : (if symbol.code = c then (0:Int) else 0) = 0 := by
      rcases eq_or_ne symbol.code c with hc | hc
      · rw [if_pos hc]
      · rw [if_neg hc]
    rw [hif]
    have hcons := hg.conserved c
    unfold supplyAmt at hcons
    omega
  · intro e he
    rcases mem_modifyAccount he with h' | ⟨b, hb, rfl⟩
    · exact hg.nonneg e h'
    · have := hg.nonneg (account, b) (findAccount_some hb).2
      simpa [frzFn] using this

theorem switchexempt_good {env : Env} {s : Ledger} {issuer : Nat}
    {symbol : Symbol} {account : Nat} {s' : Ledger} (hg : Good s)
    (h : switchexempt env s issuer symbol account = .ok s') : Good s' := by
  obtain ⟨hauth, hsym, hacct, ht, hst, hacc, hex⟩ := switchexempt_ok h
  refine ⟨?_, ?_, ?_, ?_⟩
  · intro c
    unfold supplyAmt
    rw [hst, hacc]
    exact hg.conserved c
  · rw [hacc]
    exact hg.nonneg
  · rw [hst]
    exact hg.statsBounds
  · rw [hst]
    exact hg.statsNodup

/-- Every successful operation preserves the invariant. -/
theorem applyOp_good {env : Env} {s : Ledger} {op : Op} {s' : Ledger}
    (hg : Good s) (h : applyOp env s op = .ok s') : Good s' := by
  cases op with
  | create issuer ms => exact create_good hg h
  | issue tn q memo => exact issue_good hg h
  | retire q memo => exact retire_good hg h
  | transfer f tn q memo => exact transfer_good hg h
  | «open» owner symbol p => exact open_good hg h
  | close owner symbol => exact close_good hg h
  | freeze account symbol status => exact freeze_good hg h
  | setfee issuer symbol fees => exact setfee_good hg h
  | switchexempt issuer symbol account => exact switchexempt_good hg h

/-- The empty ledger satisfies the invariant. -/
theorem empty_good : Good Ledger.empty := by
  refine ⟨fun c => rfl, ?_, ?_, ?_⟩
  · intro e he
    simp [Ledger.empty] at he
  · intro t ht
    simp [Ledger.empty] at ht
  · simp [Ledger.empty]

/-- A successful run of operations preserves the invariant. -/
theorem runOps_good {env : Env} {ops : List Op} {s s' : Ledger} (hg : Good s)
    (h : runOps env s ops = .ok s') : Good s' := by
  induction ops generalizing s with
  | nil =>
      rw [runOps] at h
      cases h
      exact hg
  | cons op ops ih =>
      rw [runOps] at h
      split at h
      · exact Except.noConfusion h
      · rename_i s1 h1
        exact ih (applyOp_good hg h1) h

/-- Every reachable ledger state satisfies the invariant. -/
theorem reachable_good {env : Env} {s : Ledger} (h : Reachable env s) :
    Good s := by
  obtain ⟨ops, hops⟩ := h
  exact runOps_good empty_good hops

/-! ## The claims -/

/-- C1: Conservation law: for every token symbol, after any sequence of
successful create/issue/retire/transfer/open/close/freeze/setfee/
switchexempt operations starting from the empty ledger, the SupplyRecord's
supply amount equals the sum of the balance amounts of all BalanceRecords
for that symbol. -/
theorem C1_conservation (env : Env) (s : Ledger) (h : Reachable env s)
    (c : Nat) (t : CurrencyStats) (hfind : findStats s.stats c = some t) :
    t.supply.amount = sumBalances s.accounts c := by
  have hg := reachable_good h
  have hc := hg.conserved c
  rw [supplyAmt_eq_of_find hfind] at hc
  exact hc

/-- Witness for C1: the eleven-operation run `opsW` (create, issue, two
transfers — one fee-paying, one exempt — open, switchexempt, freeze,
unfreeze, setfee, retire, close) ends in `stW`, whose supply 45000 equals
the sum of its balances. -/
theorem C1_conservation_witness :
    runOps env0 Ledger.empty opsW = .ok stW ∧
      findStats stW.stats 1 = some statW ∧
      statW.supply.amount = sumBalances stW.accounts 1 :=
  ⟨by decide, by decide,
    C1_conservation env0 stW ⟨opsW, by decide⟩ 1 statW (by decide)⟩

/-- C4: Non-negativity and supply range: in every state reachable by
successful operations, every BalanceRecord's balance amount is >= 0, and
every SupplyRecord's supply amount lies in [0, max_supply.amount]. -/
theorem C4_nonneg_supply_range (env : Env) (s : Ledger) (h : Reachable env s) :
    (∀ e ∈ s.accounts, 0 ≤ e.2.balance.amount) ∧
      (∀ t ∈ s.stats, 0 ≤ t.supply.amount ∧
        t.supply.amount ≤ t.max_supply.amount) := by
  have hg := reachable_good h
  refine ⟨hg.nonneg, ?_⟩
  intro t ht
  have hb := hg.statsBounds t ht
  have hfind := findStats_of_mem_nodup hg.statsNodup ht
  have hcons := hg.conserved t.supply.sym.code
  rw [supplyAmt_eq_of_find hfind] at hcons
  have h0 : 0 ≤ sumBalances s.accounts t.supply.sym.code :=
    sumBalances_nonneg hg.nonneg
  exact ⟨by omega, hb.2.2⟩

/-- Witness for C4: in the state reached by `opsW` every balance is
non-negative and the supply lies within [0, max_supply]. -/
theorem C4_nonneg_supply_range_witness :
    (∀ e ∈ stW.accounts, 0 ≤ e.2.balance.amount) ∧
      (∀ t ∈ stW.stats, 0 ≤ t.supply.amount ∧
        t.supply.amount ≤ t.max_supply.amount) :=
  C4_nonneg_supply_range env0 stW ⟨opsW, by decide⟩

/-- C3 counterexample: the claim quantifies over every quantity, but for the
negative amount -20000 with fee_rate 25 `compute_fee` returns -50, a
non-zero fee although -20000 < 10000 — refuting the claim's clause that the
fee is 0 for every quantity.amount < 10000 regardless of fee_rate. -/
theorem C3_fee_truncation_cex :
    compute_fee { amount := -20000, sym := sym0 } 25 =
        { amount := -50, sym := sym0 } ∧
      (-20000 : Int) < 10000 ∧ (-50 : Int) ≠ 0 :=
  ⟨by decide, by decide, by decide⟩

/-- C3 (amended): for every quantity with non-negative amount and every
fee_rate, compute_fee returns floor(quantity.amount / 10000) * fee_rate
typed to quantity.symbol (division truncated before multiplication — on
non-negative amounts C++ truncation toward zero coincides with floor); in
particular compute_fee with quantity.amount = 9999 and fee_rate = 49 yields
0, with quantity.amount = 20000 and fee_rate = 25 yields 50, and the fee is
0 for every quantity.amount in [0, 10000) regardless of fee_rate. -/
theorem C3_fee_truncation (q : Asset) (r : Nat) (h : 0 ≤ q.amount) :
    compute_fee q r = { amount := q.amount.fdiv 10000 * (r : Int), sym := q.sym } ∧
      (q.amount < 10000 → compute_fee q r = { amount := 0, sym := q.sym }) ∧
      compute_fee { amount := 9999, sym := q.sym } 49 =
        { amount := 0, sym := q.sym } ∧
      compute_fee { amount := 20000, sym := q.sym } 25 =
        { amount := 50, sym := q.sym } := by
  obtain ⟨n, hn⟩ := Int.eq_ofNat_of_zero_le h
  have htf : q.amount.tdiv 10000 = q.amount.fdiv 10000 := by
    rw [hn]
    cases n with
    | zero => rfl
    | succ m => rfl
  refine ⟨?_, ?_, rfl, rfl⟩
  · unfold compute_fee
    rw [htf]
  · intro hlt
    unfold compute_fee
    have hz : q.amount.tdiv 10000 = 0 := by
      rw [hn]
      have : n < 10000 := by omega
      have hdiv : n / 10000 = 0 := Nat.div_eq_of_lt this
      have : (n : Int).tdiv 10000 = ((n / 10000 : Nat) : Int) := rfl
      rw [this, hdiv]
      rfl
    rw [hz]
    simp

/-- Witness for C3 (amended): at quantity 20000 of `sym0` with the default
fee rate 10 the four clauses hold concretely. -/
theorem C3_fee_truncation_witness :
    (0 : Int) ≤ qty0.amount ∧
      (compute_fee qty0 10 =
          { amount := qty0.amount.fdiv 10000 * (10 : Nat), sym := qty0.sym } ∧
        (qty0.amount < 10000 →
          compute_fee qty0 10 = { amount := 0, sym := qty0.sym }) ∧
        compute_fee { amount := 9999, sym := qty0.sym } 49 =
          { amount := 0, sym := qty0.sym } ∧
        compute_fee { amount := 20000, sym := qty0.sym } 25 =
          { amount := 50, sym := qty0.sym }) :=
  ⟨by decide, C3_fee_truncation qty0 10 (by decide)⟩

/-- C2: Transfer exemption symmetry: for every successful
transfer(from, to, quantity, memo) with fee computed from the record's
fee_rate, if from is in the symbol's Exemption Set then from is debited
exactly quantity and to is credited exactly quantity - fee; if from is not
exempt then from is debited exactly quantity + fee and to is credited
exactly quantity; and in both branches the issuer's balance increases by
exactly fee.  (The three parties are taken distinct — the issuer is neither
sender nor recipient — as the claim speaks of three separate balances;
from ≠ to is already enforced by the operation itself.) -/
theorem C2_exemption_symmetry (env : Env) (s : Ledger) (f tn : Nat)
    (q : Asset) (memo : String) (s' : Ledger) (t : CurrencyStats)
    (hok : transfer env s f tn q memo = .ok s')
    (hfind : findStats s.stats q.sym.code = some t)
    (hif : t.issuer ≠ f) (hit : t.issuer ≠ tn) :
    (findExempt s.exempts q.sym.code f = true →
      balOf s' f q.sym.code = balOf s f q.sym.code - q.amount ∧
        balOf s' tn q.sym.code =
          balOf s tn q.sym.code + (q.amount - (compute_fee q t.fees).amount)) ∧
    (findExempt s.exempts q.sym.code f = false →
      balOf s' f q.sym.code =
          balOf s f q.sym.code - (q.amount + (compute_fee q t.fees).amount) ∧
        balOf s' tn q.sym.code = balOf s tn q.sym.code + q.amount) ∧
    balOf s' t.issuer q.sym.code =
      balOf s t.issuer q.sym.code + (compute_fee q t.fees).amount := by
  obtain ⟨hne, hauth, hacct, t', hfind', hval, hq, hqs, hmemo, s3, hbr, hab⟩ :=
    transfer_ok hok
  rw [hfind] at hfind'
  cases hfind'
  obtain ⟨hself, s1, hbranch⟩ := transfer_branch_ok hbr
  have hbi : balOf s' t.issuer q.sym.code =
      balOf s3 t.issuer q.sym.code + (compute_fee q t.fees).amount :=
    add_balance_balOf_self hab
  have hsf : balOf s' f q.sym.code = balOf s3 f q.sym.code :=
    add_balance_balOf_other hab (fun hh => hif hh.1.symm)
  have hst : balOf s' tn q.sym.code = balOf s3 tn q.sym.code :=
    add_balance_balOf_other hab (fun hh => hit hh.1.symm)
  cases hexe : findExempt s.exempts q.sym.code f with
  | true =>
      rw [if_pos hexe] at hbranch
      obtain ⟨hsb, hab2⟩ := hbranch
      have hf1 : balOf s1 f q.sym.code = balOf s f q.sym.code - q.amount :=
        sub_balance_balOf_self hsb
      have hf2 : balOf s3 f q.sym.code = balOf s1 f q.sym.code :=
        add_balance_balOf_other hab2 (fun hh => hne hh.1)
      have ht0 : balOf s1 tn q.sym.code = balOf s tn q.sym.code :=
        sub_balance_balOf_other hsb (fun hh => hne hh.1.symm)
      have ht1 : balOf s3 tn q.sym.code =
          balOf s1 tn q.sym.code + (q.amount - (compute_fee q t.fees).amount) :=
        add_balance_balOf_self hab2
      have hi0 : balOf s1 t.issuer q.sym.code = balOf s t.issuer q.sym.code :=
        sub_balance_balOf_other hsb (fun hh => hif hh.1)
      have hi1 : balOf s3 t.issuer q.sym.code = balOf s1 t.issuer q.sym.code :=
        add_balance_balOf_other hab2 (fun hh => hit hh.1)
      refine ⟨fun _ => ⟨by omega, by omega⟩, fun hfalse => ?_, by omega⟩
      exact Bool.noConfusion hfalse
  | false =>
      rw [if_neg (by rw [hexe]; exact Bool.false_ne_true)] at hbranch
      obtain ⟨hsb, hab2⟩ := hbranch
      have hf1 : balOf s1 f q.sym.code =
          balOf s f q.sym.code - (q.amount + (compute_fee q t.fees).amount) :=
        sub_balance_balOf_self hsb
      have hf2 : balOf s3 f q.sym.code = balOf s1 f q.sym.code :=
        add_balance_balOf_other hab2 (fun hh => hne hh.1)
      have ht0 : balOf s1 tn q.sym.code = balOf s tn q.sym.code :=
        sub_balance_balOf_other hsb (fun hh => hne hh.1.symm)
      have ht1 : balOf s3 tn q.sym.code = balOf s1 tn q.sym.code + q.amount :=
        add_balance_balOf_self hab2
      have hi0 : balOf s1 t.issuer q.sym.code = balOf s t.issuer q.sym.code :=
        sub_balance_balOf_other hsb (fun hh => hif hh.1)
      have hi1 : balOf s3 t.issuer q.sym.code = balOf s1 t.issuer q.sym.code :=
        add_balance_balOf_other hab2 (fun hh => hit hh.1)
      refine ⟨fun htrue => ?_, fun _ => ⟨by omega, by omega⟩, by omega⟩
      exact Bool.noConfusion htrue

/-- Witness for C2: on `ldg0` (sender 2 not exempt) the transfer of 200.00
debits 2 by 200.20 and credits 3 by 200.00; on `ldg1` (sender 2 exempt) it
debits 2 by 200.00 and credits 3 by 199.80; the issuer 1 gains the fee 0.20
in both runs. -/
theorem C2_exemption_symmetry_witness :
    transfer env0 ldg0 2 3 qty0 "" =
        .ok (resultOf (transfer env0 ldg0 2 3 qty0 "")) ∧
      findStats ldg0.stats qty0.sym.code = some stat0 ∧
      stat0.issuer ≠ 2 ∧ stat0.issuer ≠ 3 ∧
      ((findExempt ldg0.exempts qty0.sym.code 2 = true →
        balOf (resultOf (transfer env0 ldg0 2 3 qty0 "")) 2 qty0.sym.code =
            balOf ldg0 2 qty0.sym.code - qty0.amount ∧
          balOf (resultOf (transfer env0 ldg0 2 3 qty0 "")) 3 qty0.sym.code =
            balOf ldg0 3 qty0.sym.code +
              (qty0.amount - (compute_fee qty0 stat0.fees).amount)) ∧
      (findExempt ldg0.exempts qty0.sym.code 2 = false →
        balOf (resultOf (transfer env0 ldg0 2 3 qty0 "")) 2 qty0.sym.code =
            balOf ldg0 2 qty0.sym.code -
              (qty0.amount + (compute_fee qty0 stat0.fees).amount) ∧
          balOf (resultOf (transfer env0 ldg0 2 3 qty0 "")) 3 qty0.sym.code =
            balOf ldg0 3 qty0.sym.code + qty0.amount) ∧
      balOf (resultOf (transfer env0 ldg0 2 3 qty0 "")) stat0.issuer qty0.sym.code =
        balOf ldg0 stat0.issuer qty0.sym.code + (compute_fee qty0 stat0.fees).amount) ∧
      ((findExempt ldg1.exempts qty0.sym.code 2 = true →
        balOf (resultOf (transfer env0 ldg1 2 3 qty0 "")) 2 qty0.sym.code =
            balOf ldg1 2 qty0.sym.code - qty0.amount ∧
          balOf (resultOf (transfer env0 ldg1 2 3 qty0 "")) 3 qty0.sym.code =
            balOf ldg1 3 qty0.sym.code +
              (qty0.amount - (compute_fee qty0 stat0.fees).amount)) ∧
      (findExempt ldg1.exempts qty0.sym.code 2 = false →
        balOf (resultOf (transfer env0 ldg1 2 3 qty0 "")) 2 qty0.sym.code =
            balOf ldg1 2 qty0.sym.code -
              (qty0.amount + (compute_fee qty0 stat0.fees).amount) ∧
          balOf (resultOf (transfer env0 ldg1 2 3 qty0 "")) 3 qty0.sym.code =
            balOf ldg1 3 qty0.sym.code + qty0.amount) ∧
      balOf (resultOf (transfer env0 ldg1 2 3 qty0 "")) stat0.issuer qty0.sym.code =
        balOf ldg1 stat0.issuer qty0.sym.code + (compute_fee qty0 stat0.fees).amount) :=
  ⟨by decide, by decide, by decide, by decide,
    C2_exemption_symmetry env0 ldg0 2 3 qty0 ""
      (resultOf (transfer env0 ldg0 2 3 qty0 "")) stat0 (by decide) (by decide)
      (by decide) (by decide),
    C2_exemption_symmetry env0 ldg1 2 3 qty0 ""
      (resultOf (transfer env0 ldg1 2 3 qty0 "")) stat0 (by decide) (by decide)
      (by decide) (by decide)⟩

/-- The computed fee of a non-negative quantity is non-negative for any
rate, capped or not. -/
theorem compute_fee_nonneg {q : Asset} {r : Nat} (h : 0 ≤ q.amount) :
    0 ≤ (compute_fee q r).amount := by
  obtain ⟨n, hn⟩ := Int.eq_ofNat_of_zero_le h
  unfold compute_fee
  simp only
  rw [hn]
  have htd : (n : Int).tdiv 10000 = ((n / 10000 : Nat) : Int) := rfl
  rw [htd]
  positivity

/-- C5 counterexample: on a frozen account with balance 0, debiting 5 fails
with Overdrawn, not AccountFrozen — the overdrawn check precedes the frozen
check in `sub_balance`, so the claim's "AccountFrozen ... regardless of
whether the balance is sufficient" fails at this input. -/
theorem C5_sub_balance_cex :
    findAccount ldgF.accounts 7 1 =
        some { balance := { amount := 0, sym := sym0 }, is_frozen := true } ∧
      sub_balance ldgF 7 { amount := 5, sym := sym0 } = .error .Overdrawn ∧
      Err.Overdrawn ≠ Err.AccountFrozen :=
  ⟨by decide, by decide, by decide⟩

/-- C5 (amended): sub_balance(owner, value) fails with NoBalance when no
BalanceRecord exists for (owner, value.symbol); when the record exists the
checks run in order — Overdrawn when the balance amount is less than
value.amount, then AccountFrozen when the record is frozen — so a frozen
account always fails, with AccountFrozen whenever the balance is
sufficient and with Overdrawn when it is not; these checks apply on every
code path that debits a balance, including retire and transfer; on success
the balance decreases by exactly value. -/
theorem C5_sub_balance (s : Ledger) (o : Nat) (v : Asset) :
    (findAccount s.accounts o v.sym.code = none →
      sub_balance s o v = .error .NoBalance) ∧
    (∀ a, findAccount s.accounts o v.sym.code = some a →
      (a.balance.amount < v.amount → sub_balance s o v = .error .Overdrawn) ∧
      (v.amount ≤ a.balance.amount → a.is_frozen = true →
        sub_balance s o v = .error .AccountFrozen) ∧
      (a.is_frozen = true → okb (sub_balance s o v) = false)) ∧
    (∀ s', sub_balance s o v = .ok s' →
      balOf s' o v.sym.code = balOf s o v.sym.code - v.amount) ∧
    (∀ env q memo s' t, retire env s q memo = .ok s' →
      findStats s.stats q.sym.code = some t →
      ∃ a, findAccount s.accounts t.issuer q.sym.code = some a ∧
        a.is_frozen = false ∧ q.amount ≤ a.balance.amount) ∧
    (∀ env f tn q memo s', transfer env s f tn q memo = .ok s' →
      ∃ a, findAccount s.accounts f q.sym.code = some a ∧
        a.is_frozen = false ∧ q.amount ≤ a.balance.amount) := by
  refine ⟨?_, ?_, ?_, ?_, ?_⟩
  · intro hnone
    unfold sub_balance
    rw [hnone]
  · intro a ha
    refine ⟨?_, ?_, ?_⟩
    · intro hlt
      unfold sub_balance
      rw [ha]
      dsimp only
      rw [if_pos hlt]
    · intro hle hfr
      unfold sub_balance
      rw [ha]
      dsimp only
      rw [if_neg (by omega), if_pos hfr]
    · intro hfr
      unfold sub_balance
      rw [ha]
      dsimp only
      rcases lt_or_le a.balance.amount v.amount with hlt | hle
      · rw [if_pos hlt]
        rfl
      · rw [if_neg (by omega), if_pos hfr]
        rfl
  · intro s' hs'
    exact sub_balance_balOf_self hs'
  · intro env q memo s' t hret hfind
    obtain ⟨t', hfind', hsym, hmemo, hauth, hval, hq, hqs, hsb⟩ := retire_ok hret
    rw [hfind] at hfind'
    cases hfind'
    obtain ⟨a, ha, hle, hfr, _⟩ := sub_balance_ok hsb
    exact ⟨a, ha, hfr, hle⟩
  · intro env f tn q memo s' htr
    obtain ⟨hne, hauth, hacct, t, hfind, hval, hq, hqs, hmemo, s3, hbr, hab⟩ :=
      transfer_ok htr
    obtain ⟨hself, s1, hbranch⟩ := transfer_branch_ok hbr
    split at hbranch
    · obtain ⟨hsb, _⟩ := hbranch
      obtain ⟨a, ha, hle, hfr, _⟩ := sub_balance_ok hsb
      exact ⟨a, ha, hfr, hle⟩
    · obtain ⟨hsb, _⟩ := hbranch
      obtain ⟨a, ha, hle, hfr, _⟩ := sub_balance_ok hsb
      have hfee := compute_fee_nonneg (q := q) (r := t.fees) (le_of_lt hq)
      refine ⟨a, ha, hfr, ?_⟩
      have : (q.add (compute_fee q t.fees)).amount =
          q.amount + (compute_fee q t.fees).amount := rfl
      omega

/-- Witness for C5 (amended): concrete runs of each clause — a missing row
gives NoBalance, overdraft gives Overdrawn, a frozen row with sufficient
balance gives AccountFrozen and never succeeds, and a successful debit of
10.00 from owner 2 lowers the balance by exactly 1000 units. -/
theorem C5_sub_balance_witness :
    sub_balance ldgF 9 { amount := 5, sym := sym0 } = .error .NoBalance ∧
      sub_balance ldg0 2 { amount := 40000, sym := sym0 } = .error .Overdrawn ∧
      sub_balance ldgF 7 { amount := 0, sym := sym0 } = .error .AccountFrozen ∧
      okb (sub_balance ldgF 7 { amount := 0, sym := sym0 }) = false ∧
      balOf (resultOf (sub_balance ldg0 2 { amount := 1000, sym := sym0 })) 2 1 =
        balOf ldg0 2 1 - 1000 :=
  ⟨(C5_sub_balance ldgF 9 { amount := 5, sym := sym0 }).1 (by decide),
    ((C5_sub_balance ldg0 2 { amount := 40000, sym := sym0 }).2.1
      { balance := { amount := 30000, sym := sym0 }, is_frozen := false }
      (by decide)).1 (by decide),
    ((C5_sub_balance ldgF 7 { amount := 0, sym := sym0 }).2.1
      { balance := { amount := 0, sym := sym0 }, is_frozen := true }
      (by decide)).2.1 (by decide) (by decide),
    ((C5_sub_balance ldgF 7 { amount := 0, sym := sym0 }).2.1
      { balance := { amount := 0, sym := sym0 }, is_frozen := true }
      (by decide)).2.2 (by decide),
    (C5_sub_balance ldg0 2 { amount := 1000, sym := sym0 }).2.2.1
      (resultOf (sub_balance ldg0 2 { amount := 1000, sym := sym0 }))
      (by decide)⟩

/-- C6: add_balance(owner, value, payer) on an existing BalanceRecord that
is frozen fails with AccountFrozen (a frozen account cannot receive
credits), and on an absent record creates it with balance = value and
is_frozen = false (`emplacedRow value`); consequently a transfer whose
issuer holds a frozen balance record for the transferred symbol fails,
since the issuer fee credit also routes through add_balance. -/
theorem C6_add_balance_frozen (s : Ledger) (o : Nat) (v : Asset) (p : Nat) :
    (∀ a, findAccount s.accounts o v.sym.code = some a → a.is_frozen = true →
      add_balance s o v p = .error .AccountFrozen) ∧
    (findAccount s.accounts o v.sym.code = none →
      add_balance s o v p =
        .ok { s with accounts := (o, emplacedRow v) :: s.accounts }) ∧
    (∀ env f tn q memo t a, findStats s.stats q.sym.code = some t →
      findAccount s.accounts t.issuer q.sym.code = some a →
      a.is_frozen = true →
      okb (transfer env s f tn q memo) = false) := by
  refine ⟨?_, ?_, ?_⟩
  · intro a ha hfr
    unfold add_balance
    rw [ha]
    dsimp only
    rw [if_pos hfr]
  · intro hnone
    unfold add_balance
    rw [hnone]
  · intro env f tn q memo t a hfind ha hfr
    cases htr : transfer env s f tn q memo with
    | error e => rfl
    | ok s' =>
        exfalso
        obtain ⟨hne, hauth, hacct, t', hfind', hval, hq, hqs, hmemo, s3, hbr, hab⟩ :=
          transfer_ok htr
        rw [hfind] at hfind'
        cases hfind'
        obtain ⟨hself, s1, hbranch⟩ := transfer_branch_ok hbr
        split at hbranch
        · obtain ⟨hsb, hab2⟩ := hbranch
          by_cases hfi : t.issuer = f
          · obtain ⟨a', ha', hle, hfr', _⟩ := sub_balance_ok hsb
            have ha2 : findAccount s.accounts f q.sym.code = some a' := ha'
            rw [hfi] at ha
            rw [ha] at ha2
            cases ha2
            rw [hfr] at hfr'
            exact Bool.noConfusion hfr'
          · by_cases hti : t.issuer = tn
            · have h1 : findAccount s1.accounts t.issuer q.sym.code = some a :=
                (sub_balance_find_other hsb (fun hh => hfi hh.1)).trans ha
              rcases add_balance_ok hab2 with ⟨hnone, _⟩ | ⟨b, hb, hbfr, _⟩
              · have h2 : findAccount s1.accounts tn q.sym.code = none := hnone
                rw [hti] at h1
                rw [h1] at h2
                exact Option.noConfusion h2
              · have h2 : findAccount s1.accounts tn q.sym.code = some b := hb
                rw [hti] at h1
                rw [h1] at h2
                cases h2
                rw [hfr] at hbfr
                exact Bool.noConfusion hbfr
            · have h1 : findAccount s1.accounts t.issuer q.sym.code = some a :=
                (sub_balance_find_other hsb (fun hh => hfi hh.1)).trans ha
              have h2 : findAccount s3.accounts t.issuer q.sym.code = some a :=
                (add_balance_find_other hab2 (fun hh => hti hh.1)).trans h1
              rcases add_balance_ok hab with ⟨hnone, _⟩ | ⟨b, hb, hbfr, _⟩
              · have h3 : findAccount s3.accounts t.issuer q.sym.code = none :=
                  hnone
                rw [h2] at h3
                exact Option.noConfusion h3
              · have h3 : findAccount s3.accounts t.issuer q.sym.code = some b :=
                  hb
                rw [h2] at h3
                cases h3
                rw [hfr] at hbfr
                exact Bool.noConfusion hbfr
        · obtain ⟨hsb, hab2⟩ := hbranch
          by_cases hfi : t.issuer = f
          · obtain ⟨a', ha', hle, hfr', _⟩ := sub_balance_ok hsb
            have ha2 : findAccount s.accounts f q.sym.code = some a' := ha'
            rw [hfi] at ha
            rw [ha] at ha2
            cases ha2
            rw [hfr] at hfr'
            exact Bool.noConfusion hfr'
          · by_cases hti : t.issuer = tn
            · have h1 : findAccount s1.accounts t.issuer q.sym.code = some a :=
                (sub_balance_find_other hsb (fun hh => hfi hh.1)).trans ha
              rcases add_balance_ok hab2 with ⟨hnone, _⟩ | ⟨b, hb, hbfr, _⟩
              · have h2 : findAccount s1.accounts tn q.sym.code = none := hnone
                rw [hti] at h1
                rw [h1] at h2
                exact Option.noConfusion h2
              · have h2 : findAccount s1.accounts tn q.sym.code = some b := hb
                rw [hti] at h1
                rw [h1] at h2
                cases h2
                rw [hfr] at hbfr
                exact Bool.noConfusion hbfr
            · have h1 : findAccount s1.accounts t.issuer q.sym.code = some a :=
                (sub_balance_find_other hsb (fun hh => hfi hh.1)).trans ha
              have h2 : findAccount s3.accounts t.issuer q.sym.code = some a :=
                (add_balance_find_other hab2 (fun hh => hti hh.1)).trans h1
              rcases add_balance_ok hab with ⟨hnone, _⟩ | ⟨b, hb, hbfr, _⟩
              · have h3 : findAccount s3.accounts t.issuer q.sym.code = none :=
                  hnone
                rw [h2] at h3
                exact Option.noConfusion h3
              · have h3 : findAccount s3.accounts t.issuer q.sym.code = some b :=
                  hb
                rw [h2] at h3
                cases h3
                rw [hfr] at hbfr
                exact Bool.noConfusion hbfr

/-- Witness for C6: crediting the frozen row of `ldg2`'s issuer fails with
AccountFrozen; crediting absent owner 5 emplaces the unfrozen row with the
credited balance; and on `ldg2` — issuer 1 frozen — a transfer from 2 to 3
does not succeed. -/
theorem C6_add_balance_frozen_witness :
    add_balance ldg2 1 { amount := 5, sym := sym0 } 9 =
        .error .AccountFrozen ∧
      add_balance ldg2 5 { amount := 7, sym := sym0 } 9 =
        .ok { ldg2 with accounts :=
          (5, emplacedRow { amount := 7, sym := sym0 }) :: ldg2.accounts } ∧
      okb (transfer env0 ldg2 2 3 qty0 "") = false :=
  ⟨(C6_add_balance_frozen ldg2 1 { amount := 5, sym := sym0 } 9).1
      { balance := { amount := 20000, sym := sym0 }, is_frozen := true }
      (by decide) (by decide),
    (C6_add_balance_frozen ldg2 5 { amount := 7, sym := sym0 } 9).2.1
      (by decide),
    (C6_add_balance_frozen ldg2 0 { amount := 0, sym := sym0 } 0).2.2
      env0 2 3 qty0 "" stat0
      { balance := { amount := 20000, sym := sym0 }, is_frozen := true }
      (by decide) (by decide) (by decide)⟩

/-- C7: issue(to, quantity, memo) requires to to equal the SupplyRecord's
issuer (failing IssueTargetMismatch otherwise), requires quantity.amount >
0, an exact symbol match with the record, and quantity.amount <=
max_supply.amount - supply.amount (failing SupplyExceeded otherwise; a
failed check returns an error and, the operation being one `Except`
computation, the state is unchanged); on success it increases supply by
quantity and credits the issuer's balance by quantity. -/
theorem C7_issue (env : Env) (s : Ledger) (tn : Nat) (q : Asset)
    (memo : String) (t : CurrencyStats)
    (hfind : findStats s.stats q.sym.code = some t)
    (hsym : env.sym_valid q.sym = true) (hmemo : memo.length ≤ 256) :
    (tn ≠ t.issuer → issue env s tn q memo = .error .IssueTargetMismatch) ∧
    (tn = t.issuer → env.auth t.issuer = true → assetValid env q = true →
      0 < q.amount → q.sym = t.supply.sym →
      t.max_supply.amount - t.supply.amount < q.amount →
      issue env s tn q memo = .error .SupplyExceeded) ∧
    (∀ s', issue env s tn q memo = .ok s' →
      tn = t.issuer ∧ 0 < q.amount ∧ q.sym = t.supply.sym ∧
      q.amount ≤ t.max_supply.amount - t.supply.amount ∧
      supplyAmt s' q.sym.code = supplyAmt s q.sym.code + q.amount ∧
      balOf s' t.issuer q.sym.code = balOf s t.issuer q.sym.code + q.amount) := by
  have hpath : issue env s tn q memo =
      (if tn ≠ t.issuer then .error .IssueTargetMismatch
       else if env.auth t.issuer = false then .error .Unauthorized
       else if assetValid env q = false then .error .InvalidAmount
       else if q.amount ≤ 0 then .error .InvalidAmount
       else if q.sym ≠ t.supply.sym then .error .SymbolMismatch
       else if t.max_supply.amount - t.supply.amount < q.amount then
         .error .SupplyExceeded
       else add_balance
         { s with stats := modifyStats s.stats q.sym.code (issueFn q) }
         t.issuer q t.issuer) := by
    unfold issue
    rw [if_neg (show ¬(env.sym_valid q.sym = false) by simp [hsym]),
      if_neg (show ¬(256 < memo.length) by omega), hfind]
  refine ⟨?_, ?_, ?_⟩
  · intro hto
    rw [hpath, if_pos hto]
  · intro h1 h2 h3 h4 h5 h6
    rw [hpath, if_neg (fun hh => hh h1), if_neg (by simp [h2]),
      if_neg (by simp [h3]), if_neg (by omega), if_neg (fun hh => hh h5),
      if_pos h6]
  · intro s' hs'
    obtain ⟨t', hfind2, _, _, hto, _, _, hq', hqs', hceil', habl⟩ := issue_ok hs'
    rw [hfind] at hfind2
    cases hfind2
    refine ⟨hto, hq', hqs', hceil', ?_, ?_⟩
    · obtain ⟨hst, _, hsum⟩ := add_balance_sum habl q.sym.code
      have hsts : s'.stats = modifyStats s.stats q.sym.code (issueFn q) := hst
      have hf' : findStats s'.stats q.sym.code = some (issueFn q t) := by
        rw [hsts, findStats_modifyStats_self (issueFn_sym q), hfind]
        rfl
      rw [supplyAmt_eq_of_find hf', supplyAmt_eq_of_find hfind]
      simp only [issueFn, Asset.add]
    · have hb1 : balOf s' t.issuer q.sym.code =
          balOf { s with stats := modifyStats s.stats q.sym.code (issueFn q) }
            t.issuer q.sym.code + q.amount :=
        add_balance_balOf_self habl
      have hb2 : balOf { s with stats := modifyStats s.stats q.sym.code (issueFn q) }
          t.issuer q.sym.code = balOf s t.issuer q.sym.code := rfl
      omega

/-- Witness for C7: on `ldg0` — supply 500.00 of a 1000.00 ceiling — issuing
to non-issuer 2 fails IssueTargetMismatch, issuing 600.00 to the issuer
fails SupplyExceeded, and a successful issue of 200.00 raises the supply to
700.00 and the issuer's balance to 400.00. -/
theorem C7_issue_witness :
    issue env0 ldg0 2 qty0 "" = .error .IssueTargetMismatch ∧
      issue env0 ldg0 1 { amount := 60000, sym := sym0 } "" =
        .error .SupplyExceeded ∧
      (2 : Nat) ≠ stat0.issuer ∧
      (1 : Nat) = stat0.issuer ∧
      (supplyAmt (resultOf (issue env0 ldg0 1 qty0 "")) qty0.sym.code =
          supplyAmt ldg0 qty0.sym.code + qty0.amount ∧
        balOf (resultOf (issue env0 ldg0 1 qty0 "")) stat0.issuer qty0.sym.code =
          balOf ldg0 stat0.issuer qty0.sym.code + qty0.amount) :=
  ⟨(C7_issue env0 ldg0 2 qty0 "" stat0 (by decide) (by decide) (by decide)).1
      (by decide),
    (C7_issue env0 ldg0 1 { amount := 60000, sym := sym0 } "" stat0 (by decide)
      (by decide) (by decide)).2.1 (by decide) (by decide) (by decide)
      (by decide) (by decide) (by decide),
    by decide, by decide,
    (((C7_issue env0 ldg0 1 qty0 "" stat0 (by decide) (by decide)
      (by decide)).2.2 (resultOf (issue env0 ldg0 1 qty0 "")) (by decide)).2.2.2.2 :
      _ ∧ _)⟩

/-- C8: open(owner, symbol, ram_payer) is idempotent: when no BalanceRecord
exists for (owner, symbol) it creates one with balance = 0 (`openedRow`),
and calling open a second time with the same arguments is a silent no-op
returning the same state, so the resulting BalanceRecord after two calls
equals the one after a single call. -/
theorem C8_open_idempotent (env : Env) (s : Ledger) (owner : Nat)
    (symbol : Symbol) (p : Nat) (s1 : Ledger)
    (h : «open» env s owner symbol p = .ok s1) :
    «open» env s1 owner symbol p = .ok s1 ∧
      (findAccount s.accounts owner symbol.code = none →
        findAccount s1.accounts owner symbol.code = some (openedRow symbol)) := by
  obtain ⟨hauth, hacct, t, hfind, hsym, hcase⟩ := open_ok h
  rcases hcase with ⟨a, ha, rfl⟩ | ⟨hnone, rfl⟩
  · constructor
    · unfold «open»
      rw [if_neg (by simp [hauth]), if_neg (by simp [hacct]), hfind]
      dsimp only
      rw [if_neg (fun hh => hh hsym), ha]
    · intro hnone
      rw [hnone] at ha
      exact Option.noConfusion ha
  · have hfind1 : findAccount ((owner, openedRow symbol) :: s.accounts) owner
        symbol.code = some (openedRow symbol) := by
      rw [findAccount_cons, if_pos ⟨rfl, rfl⟩]
    constructor
    · unfold «open»
      dsimp only
      rw [if_neg (by simp [hauth]), if_neg (by simp [hacct]), hfind]
      dsimp only
      rw [if_neg (fun hh => hh hsym), hfind1]
    · intro _
      exact hfind1

/-- Witness for C8: opening symbol `sym0` for the fresh owner 4 on `ldg0`
creates the zero-balance row, and a second open returns the state of the
first unchanged. -/
theorem C8_open_idempotent_witness :
    «open» env0 ldg0 4 sym0 1 = .ok (resultOf («open» env0 ldg0 4 sym0 1)) ∧
      «open» env0 (resultOf («open» env0 ldg0 4 sym0 1)) 4 sym0 1 =
        .ok (resultOf («open» env0 ldg0 4 sym0 1)) ∧
      findAccount (resultOf («open» env0 ldg0 4 sym0 1)).accounts 4 sym0.code =
        some (openedRow sym0) :=
  ⟨by decide,
    (C8_open_idempotent env0 ldg0 4 sym0 1
      (resultOf («open» env0 ldg0 4 sym0 1)) (by decide)).1,
    (C8_open_idempotent env0 ldg0 4 sym0 1
      (resultOf («open» env0 ldg0 4 sym0 1)) (by decide)).2 (by decide)⟩

/-- C9: After every successful transfer the issuer of the transferred
symbol owns a BalanceRecord for that symbol: the unconditional issuer fee
credit calls add_balance even when the computed fee is 0, and add_balance
on an absent record creates it, so a zero-fee transfer whose issuer has no
balance record (the issuer then being neither sender — whose record must
exist for the debit to succeed — nor recipient) creates a record with
balance 0 for the issuer. -/
theorem C9_transfer_creates_issuer_row (env : Env) (s : Ledger) (f tn : Nat)
    (q : Asset) (memo : String) (s' : Ledger) (t : CurrencyStats)
    (h : transfer env s f tn q memo = .ok s')
    (hfind : findStats s.stats q.sym.code = some t) :
    (∃ a, findAccount s'.accounts t.issuer q.sym.code = some a) ∧
      (findAccount s.accounts t.issuer q.sym.code = none → t.issuer ≠ tn →
        compute_fee q t.fees = { amount := 0, sym := q.sym } →
        findAccount s'.accounts t.issuer q.sym.code =
          some (emplacedRow { amount := 0, sym := q.sym })) := by
  obtain ⟨hne, hauth, hacct, t', hfind', hval, hq, hqs, hmemo, s3, hbr, hab⟩ :=
    transfer_ok h
  rw [hfind] at hfind'
  cases hfind'
  obtain ⟨hself, s1, hbranch⟩ := transfer_branch_ok hbr
  constructor
  · obtain ⟨a', ha'⟩ := add_balance_find_self hab
    have ha2 : findAccount s'.accounts t.issuer q.sym.code = some a' := ha'
    exact ⟨a', ha2⟩
  · intro hnone hti hfee
    have hif : t.issuer ≠ f := by
      intro hh
      split at hbranch
      · obtain ⟨hsb, _⟩ := hbranch
        obtain ⟨a', ha', _, _, _⟩ := sub_balance_ok hsb
        have ha2 : findAccount s.accounts f q.sym.code = some a' := ha'
        rw [← hh, hnone] at ha2
        exact Option.noConfusion ha2
      · obtain ⟨hsb, _⟩ := hbranch
        obtain ⟨a', ha', _, _, _⟩ := sub_balance_ok hsb
        have ha2 : findAccount s.accounts f q.sym.code = some a' := ha'
        rw [← hh, hnone] at ha2
        exact Option.noConfusion ha2
    have h3 : findAccount s3.accounts t.issuer q.sym.code = none := by
      split at hbranch
      · obtain ⟨hsb, hab2⟩ := hbranch
        have h1 : findAccount s1.accounts t.issuer q.sym.code =
            findAccount s.accounts t.issuer q.sym.code :=
          sub_balance_find_other hsb (fun hh => hif hh.1)
        have h2 : findAccount s3.accounts t.issuer q.sym.code =
            findAccount s1.accounts t.issuer q.sym.code :=
          add_balance_find_other hab2 (fun hh => hti hh.1)
        rw [h2, h1, hnone]
      · obtain ⟨hsb, hab2⟩ := hbranch
        have h1 : findAccount s1.accounts t.issuer q.sym.code =
            findAccount s.accounts t.issuer q.sym.code :=
          sub_balance_find_other hsb (fun hh => hif hh.1)
        have h2 : findAccount s3.accounts t.issuer q.sym.code =
            findAccount s1.accounts t.issuer q.sym.code :=
          add_balance_find_other hab2 (fun hh => hti hh.1)
        rw [h2, h1, hnone]
    rcases add_balance_ok hab with ⟨hnone2, rfl⟩ | ⟨b, hb, _, _⟩
    · dsimp only
      rw [findAccount_cons, if_pos ⟨rfl, rfl⟩, hfee]
    · have h4 : findAccount s3.accounts t.issuer q.sym.code = some b := hb
      rw [h3] at h4
      exact Option.noConfusion h4

/-- Witness for C9: on `ldg9` the issuer 1 holds no balance row; the
zero-fee (50.00 < 10000 minor units) transfer from 2 to 3 succeeds and
leaves the issuer with a freshly created zero-balance row. -/
theorem C9_transfer_creates_issuer_row_witness :
    transfer env0 ldg9 2 3 { amount := 5000, sym := sym0 } "" =
        .ok (resultOf (transfer env0 ldg9 2 3 { amount := 5000, sym := sym0 } "")) ∧
      findAccount ldg9.accounts stat0.issuer 1 = none ∧
      compute_fee { amount := 5000, sym := sym0 } stat0.fees =
        { amount := 0, sym := sym0 } ∧
      findAccount
          (resultOf (transfer env0 ldg9 2 3 { amount := 5000, sym := sym0 } "")).accounts
          stat0.issuer 1 =
        some (emplacedRow { amount := 0, sym := sym0 }) :=
  ⟨by decide, by decide, by decide,
    (C9_transfer_creates_issuer_row env0 ldg9 2 3
      { amount := 5000, sym := sym0 } ""
      (resultOf (transfer env0 ldg9 2 3 { amount := 5000, sym := sym0 } ""))
      stat0 (by decide) (by decide)).2 (by decide) (by decide) (by decide)⟩

/-- C10: create(issuer, max_supply) performs no existence check on the
issuer identity: for every valid symbol not yet registered and every
max_supply with positive amount (and the contract's own authority, which is
what create does require), create succeeds and stores the given issuer name
even when no account with that identity exists — the statement assumes
`env.is_account issuer = false` outright — in contrast to transfer, open,
and switchexempt, which each fail with UnknownAccount on a non-existent
counterparty. -/
theorem C10_create_no_account_check (env : Env) (s : Ledger) (issuer : Nat)
    (ms : Asset) (hauth : env.auth env.self = true)
    (hsym : env.sym_valid ms.sym = true) (hval : assetValid env ms = true)
    (hpos : 0 < ms.amount) (hnone : findStats s.stats ms.sym.code = none)
    (hno : env.is_account issuer = false) :
    create env s issuer ms =
        .ok { s with stats := createdRow issuer ms :: s.stats } ∧
      (createdRow issuer ms).issuer = issuer ∧
      (∀ f q memo, f ≠ issuer → env.auth f = true →
        transfer env s f issuer q memo = .error .UnknownAccount) ∧
      (∀ owner p, env.is_account owner = false → env.auth p = true →
        «open» env s owner ms.sym p = .error .UnknownAccount) ∧
      (∀ iss symbol, env.auth iss = true → env.sym_valid symbol = true →
        switchexempt env s iss symbol issuer = .error .UnknownAccount) := by
  refine ⟨?_, rfl, ?_, ?_, ?_⟩
  · unfold create
    rw [if_neg (by simp [hauth]), if_neg (by simp [hsym]),
      if_neg (by simp [hval]), if_neg (by omega), hnone]
  · intro f q memo hf hauthf
    unfold transfer
    rw [if_neg hf, if_neg (by simp [hauthf]), if_pos hno]
  · intro owner p hno2 hauthp
    unfold «open»
    rw [if_neg (by simp [hauthp]), if_pos hno2]
  · intro iss symbol hauthi hsymi
    unfold switchexempt
    rw [if_neg (by simp [hauthi]), if_neg (by simp [hsymi]), if_pos hno]

/-- Witness for C10: in `env5` identity 5 is no account, yet
`create(5, 1000 symB)` succeeds and stores issuer 5, while transfer to 5,
open for 5 and switchexempt of 5 each fail with UnknownAccount. -/
theorem C10_create_no_account_check_witness :
    env5.is_account 5 = false ∧
      create env5 ldg0 5 msB =
        .ok { ldg0 with stats := createdRow 5 msB :: ldg0.stats } ∧
      (createdRow 5 msB).issuer = 5 ∧
      transfer env5 ldg0 2 5 qty0 "" = .error .UnknownAccount ∧
      «open» env5 ldg0 5 msB.sym 1 = .error .UnknownAccount ∧
      switchexempt env5 ldg0 1 sym0 5 = .error .UnknownAccount :=
  ⟨by decide,
    (C10_create_no_account_check env5 ldg0 5 msB (by decide) (by decide)
      (by decide) (by decide) (by decide) (by decide)).1,
    (C10_create_no_account_check env5 ldg0 5 msB (by decide) (by decide)
      (by decide) (by decide) (by decide) (by decide)).2.1,
    (C10_create_no_account_check env5 ldg0 5 msB (by decide) (by decide)
      (by decide) (by decide) (by decide) (by decide)).2.2.1 2 qty0 ""
      (by decide) (by decide),
    (C10_create_no_account_check env5 ldg0 5 msB (by decide) (by decide)
      (by decide) (by decide) (by decide) (by decide)).2.2.2.1 5 1
      (by decide) (by decide),
    (C10_create_no_account_check env5 ldg0 5 msB (by decide) (by decide)
      (by decide) (by decide) (by decide) (by decide)).2.2.2.2 1 sym0
      (by decide) (by decide)⟩

end token
